import Mathlib

/-!
Verification of the BMP codec and RGBA resampler (packages/wasm/src).

Shallow embedding conventions:

* Byte buffers (`&[u8]`, `Vec<u8>`) are `List Nat`, each element a byte value.
* Machine integers are `Nat` (unsigned) or `Int` (signed) with explicit
  `% 4294967296` at the places where 32-bit wrap-around happens in the code.
* Rust slice indexing `data[i]` aborts the computation when out of bounds
  instead of returning an error value.  Fallible computations therefore live
  in `Except (Option String) α`: `Except.error (some msg)` models a returned
  `Err(msg)`, while `Except.error none` models an index-out-of-bounds abort.
* `f64` arithmetic in the resampler is modelled by exact rational arithmetic
  (`ℚ`).  All concrete evaluations below only involve values on which `f64`
  arithmetic is itself exact (small dyadic rationals), so the modelled results
  coincide with the code's results there.  `f64::round` (round half away from
  zero) and the saturating/clamped float-to-integer casts are modelled
  explicitly.
* Loops that push bytes into an output vector at consecutive indices are
  modelled by the concatenation of the per-iteration byte chunks, iterated in
  loop order with short-circuiting on abort (`joinM` / `joinO`).
-/

namespace Codec

/-- Result of a fallible computation: `Except.error (some msg)` is a returned
`Err(msg)`, `Except.error none` is an out-of-bounds indexing abort. -/
abbrev Res (α : Type) := Except (Option String) α

/-- Returned error value, `Err(msg)` in the code. -/
def errMsg {α : Type} (s : String) : Res α := Except.error (some s)

/-- Rust `data[i]` on a byte slice: the byte when in bounds, an abort otherwise. -/
def readU8 (data : List Nat) (i : Nat) : Res Nat :=
  match data[i]? with
  | some b => Except.ok b
  | none => Except.error none

/-- Embedding of `utils::read_u16_le`: little-endian 16-bit read. -/
def read_u16_le (data : List Nat) (off : Nat) : Res Nat := do
  let b0 ← readU8 data off
  let b1 ← readU8 data (off + 1)
  pure (b0 + 256 * b1)

/-- Embedding of `utils::read_u32_le`: little-endian 32-bit read. -/
def read_u32_le (data : List Nat) (off : Nat) : Res Nat := do
  let b0 ← readU8 data off
  let b1 ← readU8 data (off + 1)
  let b2 ← readU8 data (off + 2)
  let b3 ← readU8 data (off + 3)
  pure (b0 + 256 * b1 + 65536 * b2 + 16777216 * b3)

/-- Reinterpret an unsigned 32-bit value as a signed `i32`. -/
def toSigned32 (u : Nat) : Int :=
  if u < 2147483648 then (u : Int) else (u : Int) - 4294967296

/-- Embedding of `utils::read_i32_le`: little-endian signed 32-bit read. -/
def read_i32_le (data : List Nat) (off : Nat) : Res Int := do
  let u ← read_u32_le data off
  pure (toSigned32 u)

/-- Little-endian bytes of a 16-bit value, as written by `utils::write_u16_le`. -/
def u16le (v : Nat) : List Nat := [v % 256, v / 256 % 256]

/-- Little-endian bytes of a 32-bit value, as written by `utils::write_u32_le`. -/
def u32le (v : Nat) : List Nat :=
  [v % 256, v / 256 % 256, v / 65536 % 256, v / 16777216 % 256]

/-- Loop combinator: run `f` on `i, i+1, …, i+k-1` in order, concatenating the
emitted byte chunks and short-circuiting on the first failure.  This models a
`for` loop that pushes bytes into an output vector. -/
def joinMAux (f : Nat → Res (List Nat)) : Nat → Nat → Res (List Nat)
  | 0, _ => Except.ok []
  | k + 1, i => do
    let a ← f i
    let r ← joinMAux f k (i + 1)
    pure (a ++ r)

/-- Run `f` on `0, …, n-1` in order, concatenating the emitted chunks. -/
def joinM (n : Nat) (f : Nat → Res (List Nat)) : Res (List Nat) := joinMAux f n 0

/-- `Option`-valued variant of `joinMAux`, for the resampler (which can abort
on an out-of-bounds read but never returns an error value). -/
def joinOAux (f : Nat → Option (List Nat)) : Nat → Nat → Option (List Nat)
  | 0, _ => some []
  | k + 1, i => do
    let a ← f i
    let r ← joinOAux f k (i + 1)
    pure (a ++ r)

/-- Run `f` on `0, …, n-1` in order, concatenating the emitted chunks. -/
def joinO (n : Nat) (f : Nat → Option (List Nat)) : Option (List Nat) := joinOAux f n 0

/-- Fuel-driven helper for `u32::trailing_zeros` (structural, so that it
reduces in the kernel).  With fuel 32 it matches the `u32` semantics,
including `trailing_zeros(0) = 32`. -/
def tzAux : Nat → Nat → Nat
  | 0, _ => 0
  | fuel + 1, m => if m % 2 = 1 then 0 else tzAux fuel (m / 2) + 1

/-- Number of trailing zero bits of a `u32` value. -/
def trailingZeros32 (m : Nat) : Nat := tzAux 32 m

/-- Fuel-driven helper for `u32::count_ones`. -/
def onesAux : Nat → Nat → Nat
  | 0, _ => 0
  | fuel + 1, m => m % 2 + onesAux fuel (m / 2)

/-- Number of set bits of a `u32` value. -/
def countOnes32 (m : Nat) : Nat := onesAux 32 m

/-- Embedding of `bmp::decoder::apply_mask`: extract the channel selected by
`mask` from the pixel word `value` and rescale it to 8 bits.  The final
`% 256` is the `as u8` cast. -/
def apply_mask (value mask : Nat) : Nat :=
  if mask = 0 then 0
  else
    let shift := trailingZeros32 mask
    let bits := countOnes32 mask
    let extracted := (value &&& mask) >>> shift
    if 8 ≤ bits then (extracted >>> (bits - 8)) % 256
    else (extracted <<< (8 - bits)) % 256

/-- Per-pixel body of the decode loop in `bmp::decoder::decode_bmp`: the
`match bits_per_pixel` dispatch, written as an `if` chain over the same
literal cases.  `table` is the color-table slice (empty when not used),
`rm gm bm am` the channel masks, `sro` the byte offset of the source row.
Reads are performed in the evaluation order of the Rust tuples. -/
def bmpPixel (data : List Nat) (bpp compression : Nat) (table : List Nat)
    (rm gm bm am : Nat) (sro x : Nat) : Res (List Nat) :=
  if bpp = 1 then
    readU8 data (sro + x / 8) >>= fun byte =>
    readU8 table (((byte >>> (7 - x % 8)) &&& 1) * 4 + 2) >>= fun t2 =>
    readU8 table (((byte >>> (7 - x % 8)) &&& 1) * 4 + 1) >>= fun t1 =>
    readU8 table (((byte >>> (7 - x % 8)) &&& 1) * 4) >>= fun t0 =>
    Except.ok [t2, t1, t0, 255]
  else if bpp = 4 then
    readU8 data (sro + x / 2) >>= fun byte =>
    (if x % 2 = 0 then Except.ok ((byte >>> 4) &&& 15) else Except.ok (byte &&& 15)) >>=
      fun nibble =>
    readU8 table (nibble * 4 + 2) >>= fun t2 =>
    readU8 table (nibble * 4 + 1) >>= fun t1 =>
    readU8 table (nibble * 4) >>= fun t0 =>
    Except.ok [t2, t1, t0, 255]
  else if bpp = 8 then
    readU8 data (sro + x) >>= fun color_idx =>
    readU8 table (color_idx * 4 + 2) >>= fun t2 =>
    readU8 table (color_idx * 4 + 1) >>= fun t1 =>
    readU8 table (color_idx * 4) >>= fun t0 =>
    Except.ok [t2, t1, t0, 255]
  else if bpp = 16 then
    read_u16_le data (sro + x * 2) >>= fun px =>
    Except.ok [(((px >>> 10) &&& 31) <<< 3) % 256, (((px >>> 5) &&& 31) <<< 3) % 256,
      ((px &&& 31) <<< 3) % 256, 255]
  else if bpp = 24 then
    readU8 data (sro + x * 3 + 2) >>= fun r =>
    readU8 data (sro + x * 3 + 1) >>= fun g =>
    readU8 data (sro + x * 3) >>= fun b =>
    Except.ok [r, g, b, 255]
  else if bpp = 32 then
    if compression = 3 then
      read_u32_le data (sro + x * 4) >>= fun px =>
      Except.ok [apply_mask px rm, apply_mask px gm, apply_mask px bm,
        if am ≠ 0 then apply_mask px am else 255]
    else
      readU8 data (sro + x * 4 + 2) >>= fun r =>
      readU8 data (sro + x * 4 + 1) >>= fun g =>
      readU8 data (sro + x * 4) >>= fun b =>
      readU8 data (sro + x * 4 + 3) >>= fun a =>
      Except.ok [r, g, b, a]
  else errMsg ("Unsupported bits per pixel: " ++ toString bpp)

/-- Embedding of `bmp::decoder::decode_bmp`.  The validation sequence, field
reads, color-table slicing, mask selection, row stride and the row/column
scan follow the source line by line.  The `BI_RGB`/`BI_BITFIELDS` constants
are the literals 0 and 3.  The four mask components are selected by the same
condition as the source's single tuple `let`; the output is the 8 dimension
bytes followed by the scanned RGBA bytes. -/
def decode_bmp (data : List Nat) : Res (List Nat) :=
  if data.length < 54 then errMsg "BMP data too small" else
  readU8 data 0 >>= fun b0 =>
  readU8 data 1 >>= fun b1 =>
  if b0 ≠ 66 ∨ b1 ≠ 77 then errMsg "Invalid BMP signature" else
  read_u32_le data 10 >>= fun data_offset =>
  read_u32_le data 14 >>= fun dib_size =>
  if dib_size < 40 then errMsg ("Unsupported DIB header size: " ++ toString dib_size) else
  read_i32_le data 18 >>= fun width =>
  read_i32_le data 22 >>= fun height =>
  read_u16_le data 28 >>= fun bits_per_pixel =>
  read_u32_le data 30 >>= fun compression =>
  if width.natAbs = 0 ∨ height.natAbs = 0 then
    errMsg ("Invalid dimensions: " ++ toString width.natAbs ++ "x" ++ toString height.natAbs)
  else
  if compression ≠ 0 ∧ compression ≠ 3 then
    errMsg ("Unsupported compression: " ++ toString compression)
  else
  (if bits_per_pixel ≤ 8 then
      (if data.length < 14 + dib_size + (1 <<< bits_per_pixel) * 4 then
        errMsg "BMP data too small for color table"
      else Except.ok ((data.drop (14 + dib_size)).take ((1 <<< bits_per_pixel) * 4)))
    else Except.ok []) >>= fun table =>
  (if compression = 3 ∧ 52 ≤ dib_size then read_u32_le data 54 else Except.ok 16711680) >>=
    fun rm =>
  (if compression = 3 ∧ 52 ≤ dib_size then read_u32_le data 58 else Except.ok 65280) >>=
    fun gm =>
  (if compression = 3 ∧ 52 ≤ dib_size then read_u32_le data 62 else Except.ok 255) >>=
    fun bm =>
  (if compression = 3 ∧ 52 ≤ dib_size then
      (if 56 ≤ dib_size then read_u32_le data 66 else Except.ok 4278190080)
    else Except.ok 4278190080) >>= fun am =>
  joinM height.natAbs (fun y =>
    joinM width.natAbs (fun x =>
      bmpPixel data bits_per_pixel compression table rm gm bm am
        (data_offset + (if height < 0 then y else height.natAbs - 1 - y)
          * ((bits_per_pixel * width.natAbs + 31) / 32 * 4)) x)) >>= fun pixels =>
  Except.ok (u32le width.natAbs ++ u32le height.natAbs ++ pixels)

/-- Check that a write `output[i] = …` into a buffer of length `len` is in
bounds; aborts (as the Rust write does) otherwise. -/
def writeCheck (i len : Nat) : Res Unit :=
  if i < len then Except.ok () else Except.error none

/-- File and DIB header bytes written by `bmp::encoder::encode_bmp` at
offsets 0–121: the writes happen at consecutive offsets (0, 2, 6, 8, 10, 14,
18, 22, 26, 28, 30, 34, 38, 42, 46, 50, 54, 58, 62, 66, 70) followed by the
48 zero bytes the code leaves untouched, so the header is their
concatenation.  `pds` is `pixel_data_size`, `fs` is `file_size`. -/
def encHeader (w h pds fs : Nat) : List Nat :=
  [66, 77] ++ u32le fs ++ u16le 0 ++ u16le 0 ++ u32le 122
    ++ u32le 108 ++ u32le w ++ u32le h ++ u16le 1 ++ u16le 32 ++ u32le 3
    ++ u32le pds ++ u32le 2835 ++ u32le 2835 ++ u32le 0 ++ u32le 0
    ++ u32le 16711680 ++ u32le 65280 ++ u32le 255 ++ u32le 4278190080
    ++ u32le 1934772034 ++ List.replicate 48 0

/-- Pixel loop of `bmp::encoder::encode_bmp`: bottom-up rows, RGBA→BGRA per
pixel; source reads and destination-write bounds checks in the code's
evaluation order.  `rs` is `row_stride`, `fs` is `file_size`. -/
def encPixelLoop (data : List Nat) (w h rs fs : Nat) : Res (List Nat) :=
  joinM h (fun y =>
    joinM w (fun x =>
      readU8 data ((h - 1 - y) * w * 4 + x * 4 + 2) >>= fun b =>
      writeCheck (122 + y * rs + x * 4) fs >>= fun _ =>
      readU8 data ((h - 1 - y) * w * 4 + x * 4 + 1) >>= fun g =>
      writeCheck (122 + y * rs + x * 4 + 1) fs >>= fun _ =>
      readU8 data ((h - 1 - y) * w * 4 + x * 4) >>= fun r =>
      writeCheck (122 + y * rs + x * 4 + 2) fs >>= fun _ =>
      readU8 data ((h - 1 - y) * w * 4 + x * 4 + 3) >>= fun a =>
      writeCheck (122 + y * rs + x * 4 + 3) fs >>= fun _ =>
      Except.ok [b, g, r, a]))

/-- Embedding of `bmp::encoder::encode_bmp`.  All `u32` arithmetic
(`width * height * 4`, `row_stride`, `pixel_data_size`, `file_size`) carries
the explicit wrap-around of the code.  The code allocates a zero buffer of
`file_size` bytes and fills it by writes at consecutive offsets (the header,
then the pixel rows at `122 + y * row_stride`); each write region is written
exactly once, so the result is the concatenation `encHeader ++ pixels`, with
every pixel write re-performing the code's bounds check (`writeCheck`) so
that the model aborts exactly when the code does. -/
def encode_bmp (width height : Nat) (data : List Nat) : Res (List Nat) :=
  let expected_len := width * height * 4 % 4294967296
  if data.length ≠ expected_len then
    errMsg ("Data length mismatch: expected " ++ toString expected_len ++ ", got "
      ++ toString data.length)
  else
    let row_stride := width * 4 % 4294967296
    let pixel_data_size := row_stride * height % 4294967296
    let file_size := (122 + pixel_data_size) % 4294967296
    encPixelLoop data width height row_stride file_size >>= fun pixels =>
    Except.ok (encHeader width height pixel_data_size file_size ++ pixels)

/-- Embedding of `bmp::get_bmp_dimensions`: header-only dimension query. -/
def get_bmp_dimensions (data : List Nat) : Res (List Nat) :=
  if data.length < 26 then errMsg "BMP data too small" else
  readU8 data 0 >>= fun b0 =>
  readU8 data 1 >>= fun b1 =>
  if b0 ≠ 66 ∨ b1 ≠ 77 then errMsg "Invalid BMP signature" else
  read_i32_le data 18 >>= fun w =>
  read_i32_le data 22 >>= fun h =>
  Except.ok [w.natAbs, h.natAbs]

/-- Model of `f64::round`: round half away from zero. -/
def roundHAZ (q : ℚ) : Int := if q < 0 then -⌊-q + 1 / 2⌋ else ⌊q + 1 / 2⌋

/-- Saturating conversion of a rounded value to a byte.  This is both the
Rust saturating `as u8` cast used by the bilinear kernel and the
`.clamp(0.0, 255.0) as u8` combination used by bicubic/Lanczos (the two
agree on integers). -/
def u8cast (z : Int) : Nat := (min (max z 0) 255).toNat

/-- Read a byte and view it as a rational, modelling `data[i] as f64`. -/
def readQ (data : List Nat) (i : Nat) : Option ℚ :=
  data[i]?.map (fun b => (b : ℚ))

/-- Rust `i32::clamp(lo, hi)`. -/
def clampI (v lo hi : Int) : Int := min (max v lo) hi

/-- Embedding of `resize::resize_nearest`.  The `as u32` cast of the
nonnegative source coordinate is the floor. -/
def resize_nearest (data : List Nat) (sW sH dW dH : Nat) : Option (List Nat) :=
  let xr : ℚ := (sW : ℚ) / (dW : ℚ)
  let yr : ℚ := (sH : ℚ) / (dH : ℚ)
  joinO dH (fun y =>
    joinO dW (fun x =>
      let src_x := (⌊(x : ℚ) * xr⌋).toNat
      let src_y := (⌊(y : ℚ) * yr⌋).toNat
      let si := (src_y * sW + src_x) * 4
      data[si]?.bind (fun p0 =>
      data[si + 1]?.bind (fun p1 =>
      data[si + 2]?.bind (fun p2 =>
      data[si + 3]?.map (fun p3 =>
      [p0, p1, p2, p3]))))))

/-- Embedding of `resize::resize_bilinear`. -/
def resize_bilinear (data : List Nat) (sW sH dW dH : Nat) : Option (List Nat) :=
  let xr : ℚ := ((sW : ℚ) - 1) / (dW : ℚ)
  let yr : ℚ := ((sH : ℚ) - 1) / (dH : ℚ)
  joinO dH (fun y =>
    joinO dW (fun x =>
      let sx := (x : ℚ) * xr
      let sy := (y : ℚ) * yr
      let x0 := (⌊sx⌋).toNat
      let y0 := (⌊sy⌋).toNat
      let x1 := min (x0 + 1) (sW - 1)
      let y1 := min (y0 + 1) (sH - 1)
      let fx := sx - (x0 : ℚ)
      let fy := sy - (y0 : ℚ)
      (List.range 4).mapM (fun c =>
        readQ data ((y0 * sW + x0) * 4 + c) >>= fun p00 =>
        readQ data ((y0 * sW + x1) * 4 + c) >>= fun p10 =>
        readQ data ((y1 * sW + x0) * 4 + c) >>= fun p01 =>
        readQ data ((y1 * sW + x1) * 4 + c) >>= fun p11 =>
        some (u8cast (roundHAZ (p00 * (1 - fx) * (1 - fy) + p10 * fx * (1 - fy)
          + p01 * (1 - fx) * fy + p11 * fx * fy))))))

/-- Embedding of `resize::cubic_weight` (Keys cubic convolution kernel). -/
def cubic_weight (t : ℚ) : ℚ :=
  let x := |t|
  if x < 1 then (3 / 2 * x - 5 / 2) * x * x + 1
  else if x < 2 then ((-1 / 2 * x + 5 / 2) * x - 4) * x + 2
  else 0

/-- Offset pairs `(j, i)` of a doubly nested `for j { for i { … } }` loop, in
iteration order. -/
def gridPairs (offs : List Int) : List (Int × Int) :=
  (offs.map (fun j => offs.map (fun i => (j, i)))).flatten

/-- Embedding of `resize::resize_bicubic`: a 4×4 neighborhood around the floor
of the source coordinate, convolved with the separable cubic kernel, then
rounded and clamped to a byte. -/
def resize_bicubic (data : List Nat) (sW sH dW dH : Nat) : Option (List Nat) :=
  let xr : ℚ := (sW : ℚ) / (dW : ℚ)
  let yr : ℚ := (sH : ℚ) / (dH : ℚ)
  joinO dH (fun y =>
    joinO dW (fun x =>
      let sx := (x : ℚ) * xr
      let sy := (y : ℚ) * yr
      let x0 : Int := ⌊sx⌋
      let y0 : Int := ⌊sy⌋
      let fx := sx - (x0 : ℚ)
      let fy := sy - (y0 : ℚ)
      (List.range 4).mapM (fun c =>
        ((gridPairs [-1, 0, 1, 2]).mapM (fun ji =>
          let px := (clampI (x0 + ji.2) 0 ((sW : Int) - 1)).toNat
          let py := (clampI (y0 + ji.1) 0 ((sH : Int) - 1)).toNat
          (readQ data ((py * sW + px) * 4 + c)).map (fun p =>
            p * (cubic_weight ((ji.2 : ℚ) - fx) * cubic_weight ((ji.1 : ℚ) - fy))))).map
          (fun vals => u8cast (roundHAZ vals.sum)))))

/-- Sum of the 6×6 window of separable weights used by a Lanczos pixel, the
value accumulated in `weight_sum` by the code. -/
def lanczosWindowSum (W : ℚ → ℚ) (fx fy : ℚ) : ℚ :=
  ((gridPairs [-2, -1, 0, 1, 2, 3]).map
    (fun ji => W ((ji.2 : ℚ) - fx) * W ((ji.1 : ℚ) - fy))).sum

/-- Embedding of `resize::resize_lanczos`, parameterized by the separable
weight function `W`.  The code's `lanczos_weight(x, 3.0)` is a transcendental
windowed sinc over `f64`, which has no exact rational form; every theorem
below is therefore stated for an arbitrary `W` (with an explicit positivity
hypothesis on window sums where the code relies on `weight_sum > 0`), and so
holds in particular for the code's weight.  A destination byte is left at its
initial 0 when the window's weight sum is not positive, as in the code. -/
def resize_lanczos (W : ℚ → ℚ) (data : List Nat) (sW sH dW dH : Nat) : Option (List Nat) :=
  let xr : ℚ := (sW : ℚ) / (dW : ℚ)
  let yr : ℚ := (sH : ℚ) / (dH : ℚ)
  joinO dH (fun y =>
    joinO dW (fun x =>
      let sx := (x : ℚ) * xr
      let sy := (y : ℚ) * yr
      let x0 : Int := ⌊sx⌋
      let y0 : Int := ⌊sy⌋
      let fx := sx - (x0 : ℚ)
      let fy := sy - (y0 : ℚ)
      let ws := lanczosWindowSum W fx fy
      (List.range 4).mapM (fun c =>
        ((gridPairs [-2, -1, 0, 1, 2, 3]).mapM (fun ji =>
          let px := (clampI (x0 + ji.2) 0 ((sW : Int) - 1)).toNat
          let py := (clampI (y0 + ji.1) 0 ((sH : Int) - 1)).toNat
          (readQ data ((py * sW + px) * 4 + c)).map (fun p =>
            p * (W ((ji.2 : ℚ) - fx) * W ((ji.1 : ℚ) - fy))))).map
          (fun vals => if 0 < ws then u8cast (roundHAZ (vals.sum / ws)) else 0))))

/-- Image whose every pixel is the RGBA quadruple `(r, g, b, a)`. -/
def uniformImage (w h r g b a : Nat) : List Nat :=
  ((List.range (w * h)).map (fun _ => [r, g, b, a])).flatten

end Codec

namespace Codec

/-! ### Basic lemmas about the result monad and the byte readers -/

@[simp] theorem res_pure_eq {α : Type} (a : α) : (pure a : Res α) = Except.ok a := rfl

@[simp] theorem res_bind_ok {α β : Type} (a : α) (f : α → Res β) :
    (Except.ok a : Res α) >>= f = f a := rfl

@[simp] theorem res_bind_err {α β : Type} (e : Option String) (f : α → Res β) :
    (Except.error e : Res α) >>= f = (Except.error e : Res β) := rfl

theorem except_bind_ok {α β : Type} (a : α) (f : α → Res β) :
    Except.bind (Except.ok a) f = f a := rfl

/-- Byte of a buffer at an index, with default 0; used only to state lemmas. -/
def byteAt (data : List Nat) (i : Nat) : Nat := data.getD i 0

/-- Little-endian 16-bit value of a buffer at an offset; used only to state lemmas. -/
def u16at (data : List Nat) (off : Nat) : Nat :=
  byteAt data off + 256 * byteAt data (off + 1)

/-- Little-endian 32-bit value of a buffer at an offset; used only to state lemmas. -/
def u32at (data : List Nat) (off : Nat) : Nat :=
  byteAt data off + 256 * byteAt data (off + 1) + 65536 * byteAt data (off + 2)
    + 16777216 * byteAt data (off + 3)

/-- Little-endian `i32` value of a buffer at an offset; used only to state lemmas. -/
def i32at (data : List Nat) (off : Nat) : Int := toSigned32 (u32at data off)

theorem readU8_ok {data : List Nat} {i : Nat} (h : i < data.length) :
    readU8 data i = Except.ok (byteAt data i) := by
  simp [readU8, byteAt, List.getElem?_eq_getElem h, List.getD_eq_getElem?_getD]

theorem readU8_oob {data : List Nat} {i : Nat} (h : data.length ≤ i) :
    readU8 data i = Except.error none := by
  simp [readU8, List.getElem?_eq_none h]

theorem read_u16_le_ok {data : List Nat} {off : Nat} (h : off + 2 ≤ data.length) :
    read_u16_le data off = Except.ok (u16at data off) := by
  rw [read_u16_le, readU8_ok (by omega), res_bind_ok, readU8_ok (by omega), res_bind_ok]
  rfl

theorem read_u32_le_ok {data : List Nat} {off : Nat} (h : off + 4 ≤ data.length) :
    read_u32_le data off = Except.ok (u32at data off) := by
  rw [read_u32_le, readU8_ok (by omega), res_bind_ok, readU8_ok (by omega), res_bind_ok,
    readU8_ok (by omega), res_bind_ok, readU8_ok (by omega), res_bind_ok]
  rfl

theorem read_i32_le_ok {data : List Nat} {off : Nat} (h : off + 4 ≤ data.length) :
    read_i32_le data off = Except.ok (i32at data off) := by
  rw [read_i32_le, read_u32_le_ok h, res_bind_ok]
  rfl

theorem readU8_append_left {l1 l2 : List Nat} {i : Nat} (h : i < l1.length) :
    readU8 (l1 ++ l2) i = readU8 l1 i := by
  simp [readU8, List.getElem?_append_left h]

theorem readU8_append_right (l1 l2 : List Nat) (k : Nat) :
    readU8 (l1 ++ l2) (l1.length + k) = readU8 l2 k := by
  simp [readU8, List.getElem?_append_right (by omega : l1.length ≤ l1.length + k)]

/-! ### Loop-combinator lemmas -/

theorem joinMAux_ok {f : Nat → Res (List Nat)} {g : Nat → List Nat} :
    ∀ (k i : Nat), (∀ j, i ≤ j → j < i + k → f j = Except.ok (g j)) →
      joinMAux f k i = Except.ok (((List.range' i k).map g).flatten)
  | 0, i, _ => by simp [joinMAux]
  | k + 1, i, h => by
    rw [joinMAux, h i (le_refl i) (by omega), res_bind_ok,
      joinMAux_ok k (i + 1) (fun j h1 h2 => h j (by omega) (by omega)), res_bind_ok]
    simp [List.range'_succ]

theorem joinM_ok {n : Nat} {f : Nat → Res (List Nat)} (g : Nat → List Nat)
    (h : ∀ j, j < n → f j = Except.ok (g j)) :
    joinM n f = Except.ok (((List.range n).map g).flatten) := by
  rw [joinM, joinMAux_ok n 0 (fun j _ h2 => h j (by omega)), List.range_eq_range']

theorem joinOAux_some {f : Nat → Option (List Nat)} {g : Nat → List Nat} :
    ∀ (k i : Nat), (∀ j, i ≤ j → j < i + k → f j = some (g j)) →
      joinOAux f k i = some (((List.range' i k).map g).flatten)
  | 0, i, _ => by simp [joinOAux]
  | k + 1, i, h => by
    rw [joinOAux, h i (le_refl i) (by omega)]
    simp only [Option.bind_eq_bind, Option.some_bind]
    rw [joinOAux_some k (i + 1) (fun j h1 h2 => h j (by omega) (by omega))]
    simp [List.range'_succ]

theorem joinO_some {n : Nat} {f : Nat → Option (List Nat)} (g : Nat → List Nat)
    (h : ∀ j, j < n → f j = some (g j)) :
    joinO n f = some (((List.range n).map g).flatten) := by
  rw [joinO, joinOAux_some n 0 (fun j _ h2 => h j (by omega)), List.range_eq_range']

theorem joinOAux_mem {f : Nat → Option (List Nat)} {P : Nat → Prop}
    (hf : ∀ j l, f j = some l → ∀ v ∈ l, P v) :
    ∀ (k i : Nat) (out : List Nat), joinOAux f k i = some out → ∀ v ∈ out, P v
  | 0, i, out, h => by
    simp only [joinOAux] at h
    intro v hv
    rw [← Option.some_inj.mp h] at hv
    simp at hv
  | k + 1, i, out, h => by
    rw [joinOAux] at h
    cases ha : f i with
    | none => rw [ha] at h; simp at h
    | some a =>
      rw [ha] at h
      simp only [Option.bind_eq_bind, Option.some_bind] at h
      cases hr : joinOAux f k (i + 1) with
      | none => rw [hr] at h; simp at h
      | some r =>
        rw [hr] at h
        simp only [Option.some_bind] at h
        intro v hv
        rw [← Option.some_inj.mp h] at hv
        rcases List.mem_append.mp hv with hv1 | hv2
        · exact hf i a ha v hv1
        · exact joinOAux_mem hf k (i + 1) r hr v hv2

theorem mapM_some_of_forall {α β : Type} {l : List α} {f : α → Option β} (g : α → β)
    (h : ∀ a ∈ l, f a = some (g a)) : l.mapM f = some (l.map g) := by
  induction l with
  | nil => rfl
  | cons a t ih =>
    rw [List.mapM_cons, h a (by simp)]
    simp only [Option.bind_eq_bind, Option.some_bind, List.map_cons]
    rw [ih (fun b hb => h b (by simp [hb]))]
    rfl

theorem mapM_some_mem {α β : Type} {f : α → Option β} {P : β → Prop}
    (hf : ∀ a b, f a = some b → P b) :
    ∀ (l : List α) (out : List β), l.mapM f = some out → ∀ v ∈ out, P v := by
  intro l
  induction l with
  | nil =>
    intro out h v hv
    rw [List.mapM_nil] at h
    rw [← Option.some_inj.mp h] at hv
    simp at hv
  | cons a t ih =>
    intro out h v hv
    rw [List.mapM_cons] at h
    cases ha : f a with
    | none => rw [ha] at h; simp at h
    | some b =>
      rw [ha] at h
      simp only [Option.bind_eq_bind, Option.some_bind] at h
      cases hr : t.mapM f with
      | none => rw [hr] at h; simp at h
      | some r =>
        rw [hr] at h
        simp only [Option.some_bind, res_pure_eq] at h
        have : b :: r = out := by simpa using h
        rw [← this] at hv
        rcases List.mem_cons.mp hv with hv1 | hv2
        · exact hv1 ▸ hf a b ha
        · exact ih r hr v hv2

end Codec

namespace Codec

/-! ### Lemmas about flattened blocks of uniform length -/

theorem flatten_uniform_length (g : Nat → List Nat) (L : Nat) :
    ∀ (n : Nat), (∀ j, j < n → (g j).length = L) →
      (((List.range n).map g).flatten).length = n * L := by
  intro n
  induction n with
  | zero => intro _; simp
  | succ m ih =>
    intro h
    rw [List.range_succ, List.map_append, List.flatten_append]
    simp only [List.map_cons, List.map_nil, List.flatten_cons, List.flatten_nil,
      List.length_append]
    rw [ih (fun j hj => h j (by omega)), h m (by omega)]
    simp [Nat.succ_mul]

theorem blockGet {L : Nat} :
    ∀ (n : Nat) (g : Nat → List Nat) (i r : Nat),
      (∀ j, j < n → (g j).length = L) → i < n → r < L →
      (((List.range n).map g).flatten)[i * L + r]? = (g i)[r]? := by
  intro n
  induction n with
  | zero => intro g i r _ hi _; omega
  | succ m ih =>
    intro g i r hlen hi hr
    rw [List.range_succ_eq_map]
    simp only [List.map_cons, List.flatten_cons, List.map_map]
    cases i with
    | zero =>
      simp only [Nat.zero_mul, Nat.zero_add]
      exact List.getElem?_append_left (by rw [hlen 0 (by omega)]; omega)
    | succ i0 =>
      have hL : (g 0).length = L := hlen 0 (by omega)
      have : (i0 + 1) * L + r = (g 0).length + (i0 * L + r) := by
        rw [hL]; ring
      rw [this, List.getElem?_append_right (by omega)]
      have : (g 0).length + (i0 * L + r) - (g 0).length = i0 * L + r := by omega
      rw [this]
      have := ih (fun k => g (k + 1)) i0 r
        (fun j hj => hlen (j + 1) (by omega)) (by omega) hr
      simpa [Function.comp] using this

/-- The bytes of `l`, reassembled from its 4-byte chunks. -/
theorem flatten_chunks4 :
    ∀ (n : Nat) (l : List Nat), l.length = 4 * n →
      ((List.range n).map (fun k =>
        [byteAt l (4 * k), byteAt l (4 * k + 1), byteAt l (4 * k + 2),
          byteAt l (4 * k + 3)])).flatten = l := by
  intro n
  induction n with
  | zero => intro l h; simp [List.length_eq_zero.mp h]
  | succ m ih =>
    intro l h
    match l, h with
    | a :: b :: c :: d :: t, h =>
      rw [List.range_succ_eq_map]
      simp only [List.map_cons, List.flatten_cons, List.map_map]
      have h0 : [byteAt (a :: b :: c :: d :: t) (4 * 0),
          byteAt (a :: b :: c :: d :: t) (4 * 0 + 1),
          byteAt (a :: b :: c :: d :: t) (4 * 0 + 2),
          byteAt (a :: b :: c :: d :: t) (4 * 0 + 3)] = [a, b, c, d] := rfl
      rw [h0]
      have hmap : ∀ k, k < m →
          [byteAt (a :: b :: c :: d :: t) (4 * (k + 1)),
            byteAt (a :: b :: c :: d :: t) (4 * (k + 1) + 1),
            byteAt (a :: b :: c :: d :: t) (4 * (k + 1) + 2),
            byteAt (a :: b :: c :: d :: t) (4 * (k + 1) + 3)]
          = [byteAt t (4 * k), byteAt t (4 * k + 1), byteAt t (4 * k + 2),
              byteAt t (4 * k + 3)] := by
        intro k _
        have e0 : 4 * (k + 1) = 4 * k + 4 := by ring
        rw [e0]
        rfl
      calc [a, b, c, d] ++ (List.map (fun k =>
              [byteAt (a :: b :: c :: d :: t) (4 * (k + 1)),
                byteAt (a :: b :: c :: d :: t) (4 * (k + 1) + 1),
                byteAt (a :: b :: c :: d :: t) (4 * (k + 1) + 2),
                byteAt (a :: b :: c :: d :: t) (4 * (k + 1) + 3)]) (List.range m)).flatten
          = [a, b, c, d] ++ (List.map (fun k =>
              [byteAt t (4 * k), byteAt t (4 * k + 1), byteAt t (4 * k + 2),
                byteAt t (4 * k + 3)]) (List.range m)).flatten := by
            rw [List.map_congr_left (fun k hk => hmap k (List.mem_range.mp hk))]
        _ = a :: b :: c :: d :: t := by
            rw [ih t (by simpa [Nat.succ_mul, Nat.mul_succ] using
              (by simp at h; omega : t.length = 4 * m))]
            rfl

/-- Collapse a doubly nested flattened scan into a single one. -/
theorem flatten_nested {g : Nat → List Nat} :
    ∀ (h w : Nat),
      ((List.range h).map (fun y =>
        ((List.range w).map (fun x => g (y * w + x))).flatten)).flatten
      = ((List.range (h * w)).map g).flatten := by
  intro h
  induction h with
  | zero => intro w; simp
  | succ m ih =>
    intro w
    rw [List.range_succ, List.map_append, List.flatten_append, ih w]
    have : (m + 1) * w = m * w + w := by ring
    rw [this, List.range_add, List.map_append, List.flatten_append, List.map_map]
    simp only [List.map_cons, List.map_nil, List.flatten_cons, List.flatten_nil,
      List.append_nil]
    exact congrArg _ (congrArg _ (List.map_congr_left fun x _ => rfl))

end Codec

namespace Codec

/-! ### Bitwise lemmas and the behaviour of apply_mask on byte-aligned masks -/

theorem land_shiftRight (x y k : Nat) : (x &&& y) >>> k = (x >>> k) &&& (y >>> k) := by
  apply Nat.eq_of_testBit_eq
  intro i
  simp [Nat.testBit_shiftRight, Nat.testBit_land]

theorem land_255 (x : Nat) : x &&& 255 = x % 256 := by
  have h := Nat.and_pow_two_sub_one_eq_mod x 8
  norm_num at h
  exact h

theorem apply_mask_red (v : Nat) : apply_mask v 16711680 = v / 65536 % 256 := by
  have h1 : trailingZeros32 16711680 = 16 := rfl
  have h2 : countOnes32 16711680 = 8 := rfl
  rw [apply_mask, if_neg (by norm_num)]
  simp only [h1, h2]
  rw [if_pos (by norm_num)]
  rw [land_shiftRight]
  have h3 : (16711680 : Nat) >>> 16 = 255 := rfl
  rw [h3, land_255, Nat.shiftRight_eq_div_pow, Nat.shiftRight_eq_div_pow]
  norm_num

theorem apply_mask_green (v : Nat) : apply_mask v 65280 = v / 256 % 256 := by
  have h1 : trailingZeros32 65280 = 8 := rfl
  have h2 : countOnes32 65280 = 8 := rfl
  rw [apply_mask, if_neg (by norm_num)]
  simp only [h1, h2]
  rw [if_pos (by norm_num)]
  rw [land_shiftRight]
  have h3 : (65280 : Nat) >>> 8 = 255 := rfl
  rw [h3, land_255, Nat.shiftRight_eq_div_pow, Nat.shiftRight_eq_div_pow]
  norm_num

theorem apply_mask_blue (v : Nat) : apply_mask v 255 = v % 256 := by
  have h1 : trailingZeros32 255 = 0 := rfl
  have h2 : countOnes32 255 = 8 := rfl
  rw [apply_mask, if_neg (by norm_num)]
  simp only [h1, h2]
  rw [if_pos (by norm_num)]
  rw [land_255]
  simp

theorem apply_mask_alpha (v : Nat) : apply_mask v 4278190080 = v / 16777216 % 256 := by
  have h1 : trailingZeros32 4278190080 = 24 := rfl
  have h2 : countOnes32 4278190080 = 8 := rfl
  rw [apply_mask, if_neg (by norm_num)]
  simp only [h1, h2]
  rw [if_pos (by norm_num)]
  rw [land_shiftRight]
  have h3 : (4278190080 : Nat) >>> 24 = 255 := rfl
  rw [h3, land_255, Nat.shiftRight_eq_div_pow, Nat.shiftRight_eq_div_pow]
  norm_num

/-- Recompose the little-endian bytes written by `u32le`. -/
theorem u32le_readback (v : Nat) :
    v % 256 + 256 * (v / 256 % 256) + 65536 * (v / 65536 % 256)
      + 16777216 * (v / 16777216 % 256) = v % 4294967296 := by
  omega

end Codec

namespace Codec

/-! ### Claim C5: apply_mask behaviour -/

/-- C5: the channel-extraction function masks the pixel word, shifts by the
mask's trailing-zero count and rescales to 8 bits; in particular
`apply_mask 0x00ff0000 0x00ff0000 = 255`, `apply_mask 0x00800000 0x00ff0000
= 128` and `apply_mask 0 0x00ff0000 = 0`.  The two quantified conjuncts state
the ≥ 8-bit branch (top 8 bits of the extracted value) and the < 8-bit branch
(left shift filling 8 bits) in closed arithmetic form for byte-aligned
example masks. -/
theorem c5_apply_mask :
    apply_mask 16711680 16711680 = 255 ∧ apply_mask 8388608 16711680 = 128
      ∧ apply_mask 0 16711680 = 0
      ∧ (∀ v : Nat, apply_mask v 16711680 = v / 65536 % 256)
      ∧ (∀ v : Nat, apply_mask v 7 = v % 8 * 32) := by
  refine ⟨rfl, rfl, rfl, apply_mask_red, ?_⟩
  intro v
  have h1 : trailingZeros32 7 = 0 := rfl
  have h2 : countOnes32 7 = 3 := rfl
  rw [apply_mask, if_neg (by norm_num)]
  simp only [h1, h2]
  rw [if_neg (by norm_num)]
  have h3 : v &&& 7 = v % 8 := by
    have h := Nat.and_pow_two_sub_one_eq_mod v 3
    norm_num at h
    exact h
  simp only [Nat.shiftRight_zero, h3, Nat.shiftLeft_eq]
  have : v % 8 * 2 ^ (8 - 3) = v % 8 * 32 := by norm_num
  rw [this, Nat.mod_eq_of_lt (by omega)]

/-! ### Claim C4: the decoder's validations do not bound the pixel array -/

/-- Concrete 54-byte input for C4: valid signature, DIB size 40, 1×1,
24 bits per pixel, uncompressed, pixel-data offset 54.  Every validation of
`decode_bmp` passes, but the buffer ends exactly where the pixel array
should begin. -/
def c4buf : List Nat :=
  [66, 77, 0, 0, 0, 0, 0, 0, 0, 0, 54, 0, 0, 0, 40, 0, 0, 0,
    1, 0, 0, 0, 1, 0, 0, 0, 1, 0, 24, 0, 0, 0, 0, 0] ++ List.replicate 20 0

/-- C4: there is an input that passes every validation (length ≥ 54, valid
signature, DIB size ≥ 40, supported compression, non-zero dimensions, no
color table required) on which the per-pixel scan indexes the input buffer
past its end, so decode aborts on an out-of-bounds access
(`Except.error none`) instead of returning an error value. -/
theorem c4_oob_pixel_scan : decode_bmp c4buf = Except.error none := by rfl

end Codec

namespace Codec

/-! ### Claim C2: the decoder's validation sequence -/

/-- Concrete input for C2: 54 bytes, valid signature, DIB size 40, width 0,
height 1, compression 7 (unsupported).  The claim predicts the compression
error; the code reports the dimension error. -/
def c2buf : List Nat :=
  [66, 77, 0, 0, 0, 0, 0, 0, 0, 0, 54, 0, 0, 0, 40, 0, 0, 0,
    0, 0, 0, 0, 1, 0, 0, 0, 1, 0, 24, 0, 7, 0, 0, 0] ++ List.replicate 20 0

/-- C2 (counterexample): on an input whose compression field is unsupported
(7) and whose width is zero, `decode_bmp` reports the invalid-dimensions
error, not the unsupported-compression error the claim predicts. -/
theorem c2_counterexample :
    decode_bmp c2buf = errMsg "Invalid dimensions: 0x1"
      ∧ decode_bmp c2buf ≠ errMsg "Unsupported compression: 7" := by
  have h1 : decode_bmp c2buf = errMsg "Invalid dimensions: 0x1" := rfl
  refine ⟨h1, ?_⟩
  rw [h1]
  intro h
  simp only [errMsg, Except.error.injEq, Option.some.injEq] at h
  exact absurd h (by decide)

end Codec

namespace Codec

/-- Evaluation of `decode_bmp` past the length and signature checks, with all
header reads replaced by the pure byte views (`u32at`, `i32at`, `u16at`). -/
theorem decode_unfold {data : List Nat} (h54 : ¬ data.length < 54)
    (h0 : byteAt data 0 = 66) (h1 : byteAt data 1 = 77) :
    decode_bmp data =
      (if u32at data 14 < 40 then
        errMsg ("Unsupported DIB header size: " ++ toString (u32at data 14))
      else
      if (i32at data 18).natAbs = 0 ∨ (i32at data 22).natAbs = 0 then
        errMsg ("Invalid dimensions: " ++ toString (i32at data 18).natAbs ++ "x"
          ++ toString (i32at data 22).natAbs)
      else
      if u32at data 30 ≠ 0 ∧ u32at data 30 ≠ 3 then
        errMsg ("Unsupported compression: " ++ toString (u32at data 30))
      else
      (if u16at data 28 ≤ 8 then
          (if data.length < 14 + u32at data 14 + (1 <<< u16at data 28) * 4 then
            errMsg "BMP data too small for color table"
          else Except.ok ((data.drop (14 + u32at data 14)).take ((1 <<< u16at data 28) * 4)))
        else Except.ok []) >>= fun table =>
      (if u32at data 30 = 3 ∧ 52 ≤ u32at data 14 then read_u32_le data 54
        else Except.ok 16711680) >>= fun rm =>
      (if u32at data 30 = 3 ∧ 52 ≤ u32at data 14 then read_u32_le data 58
        else Except.ok 65280) >>= fun gm =>
      (if u32at data 30 = 3 ∧ 52 ≤ u32at data 14 then read_u32_le data 62
        else Except.ok 255) >>= fun bm =>
      (if u32at data 30 = 3 ∧ 52 ≤ u32at data 14 then
          (if 56 ≤ u32at data 14 then read_u32_le data 66 else Except.ok 4278190080)
        else Except.ok 4278190080) >>= fun am =>
      joinM (i32at data 22).natAbs (fun y =>
        joinM (i32at data 18).natAbs (fun x =>
          bmpPixel data (u16at data 28) (u32at data 30) table rm gm bm am
            (u32at data 10 + (if i32at data 22 < 0 then y else (i32at data 22).natAbs - 1 - y)
              * ((u16at data 28 * (i32at data 18).natAbs + 31) / 32 * 4)) x)) >>= fun pixels =>
      Except.ok (u32le (i32at data 18).natAbs ++ u32le (i32at data 22).natAbs ++ pixels)) := by
  rw [decode_bmp, if_neg h54, readU8_ok (by omega), res_bind_ok, readU8_ok (by omega),
    res_bind_ok, if_neg (by simp [h0, h1]), read_u32_le_ok (by omega), res_bind_ok,
    read_u32_le_ok (by omega), res_bind_ok, read_i32_le_ok (by omega), res_bind_ok,
    read_i32_le_ok (by omega), res_bind_ok, read_u16_le_ok (by omega), res_bind_ok,
    read_u32_le_ok (by omega), res_bind_ok]

/-- C2 (amended): `decode_bmp` checks, in order: (1) buffer length ≥ 54,
(2) BMP signature, (3) DIB header size ≥ 40, (4) absolute width and height
non-zero, (5) compression supported, (6) color table fits when the bit depth
requires one — each failing check producing its own error, so an input with
an unsupported compression and a zero width reports the invalid-dimensions
error (dimensions are validated before compression, contrary to the claim's
order). -/
theorem c2_validation_order :
    (∀ data : List Nat, data.length < 54 →
      decode_bmp data = errMsg "BMP data too small")
    ∧ (∀ data : List Nat, 54 ≤ data.length →
        (byteAt data 0 ≠ 66 ∨ byteAt data 1 ≠ 77) →
        decode_bmp data = errMsg "Invalid BMP signature")
    ∧ (∀ data : List Nat, 54 ≤ data.length → byteAt data 0 = 66 → byteAt data 1 = 77 →
        u32at data 14 < 40 →
        decode_bmp data = errMsg ("Unsupported DIB header size: " ++ toString (u32at data 14)))
    ∧ (∀ data : List Nat, 54 ≤ data.length → byteAt data 0 = 66 → byteAt data 1 = 77 →
        40 ≤ u32at data 14 →
        ((i32at data 18).natAbs = 0 ∨ (i32at data 22).natAbs = 0) →
        decode_bmp data = errMsg ("Invalid dimensions: " ++ toString (i32at data 18).natAbs
          ++ "x" ++ toString (i32at data 22).natAbs))
    ∧ (∀ data : List Nat, 54 ≤ data.length → byteAt data 0 = 66 → byteAt data 1 = 77 →
        40 ≤ u32at data 14 →
        (i32at data 18).natAbs ≠ 0 → (i32at data 22).natAbs ≠ 0 →
        u32at data 30 ≠ 0 → u32at data 30 ≠ 3 →
        decode_bmp data = errMsg ("Unsupported compression: " ++ toString (u32at data 30)))
    ∧ (∀ data : List Nat, 54 ≤ data.length → byteAt data 0 = 66 → byteAt data 1 = 77 →
        40 ≤ u32at data 14 →
        (i32at data 18).natAbs ≠ 0 → (i32at data 22).natAbs ≠ 0 →
        (u32at data 30 = 0 ∨ u32at data 30 = 3) →
        u16at data 28 ≤ 8 →
        data.length < 14 + u32at data 14 + (1 <<< u16at data 28) * 4 →
        decode_bmp data = errMsg "BMP data too small for color table") := by
  refine ⟨?_, ?_, ?_, ?_, ?_, ?_⟩
  · intro data h
    rw [decode_bmp, if_pos h]
  · intro data h54 hsig
    rw [decode_bmp, if_neg (by omega), readU8_ok (by omega), res_bind_ok,
      readU8_ok (by omega), res_bind_ok, if_pos hsig]
  · intro data h54 h0 h1 hdib
    rw [decode_unfold (by omega) h0 h1, if_pos hdib]
  · intro data h54 h0 h1 hdib hdims
    rw [decode_unfold (by omega) h0 h1, if_neg (by omega), if_pos hdims]
  · intro data h54 h0 h1 hdib hw hh hc0 hc3
    rw [decode_unfold (by omega) h0 h1, if_neg (by omega), if_neg (by simp [hw, hh]),
      if_pos ⟨hc0, hc3⟩]
  · intro data h54 h0 h1 hdib hw hh hcomp hbpp hct
    rw [decode_unfold (by omega) h0 h1, if_neg (by omega), if_neg (by simp [hw, hh]),
      if_neg (by omega), if_pos hbpp, if_pos hct]
    rfl

/-- Witness for C2: the length check fires on the empty buffer. -/
theorem c2_validation_order_witness :
    decode_bmp [] = errMsg "BMP data too small" :=
  c2_validation_order.1 [] (by decide)

end Codec

namespace Codec

/-! ### Claim C7: the encoder's error behaviour -/

theorem readU8_no_msg (data : List Nat) (i : Nat) (s : String) :
    readU8 data i ≠ Except.error (some s) := by
  rw [readU8]
  cases data[i]? <;> simp

theorem writeCheck_no_msg (i len : Nat) (s : String) :
    writeCheck i len ≠ Except.error (some s) := by
  rw [writeCheck]
  split <;> simp

theorem bind_no_msg {α β : Type} {x : Res α} {f : α → Res β}
    (hx : ∀ s, x ≠ Except.error (some s)) (hf : ∀ a s, f a ≠ Except.error (some s)) :
    ∀ s, x >>= f ≠ Except.error (some s) := by
  intro s
  cases x with
  | error e =>
    cases e with
    | none => simp
    | some t => exact absurd rfl (hx t)
  | ok a => exact hf a s

theorem joinMAux_no_msg {f : Nat → Res (List Nat)}
    (hf : ∀ j s, f j ≠ Except.error (some s)) :
    ∀ (k i : Nat) (s : String), joinMAux f k i ≠ Except.error (some s)
  | 0, i, s => by simp [joinMAux]
  | k + 1, i, s => by
    rw [joinMAux]
    exact bind_no_msg (hf i) (fun a => bind_no_msg
      (fun t => joinMAux_no_msg hf k (i + 1) t) (fun r u => by simp)) s

theorem joinM_no_msg {n : Nat} {f : Nat → Res (List Nat)}
    (hf : ∀ j s, f j ≠ Except.error (some s)) (s : String) :
    joinM n f ≠ Except.error (some s) :=
  joinMAux_no_msg hf n 0 s

theorem encHeader_sig (w h pds fs : Nat) (rest : List Nat) :
    byteAt (encHeader w h pds fs ++ rest) 0 = 66
      ∧ byteAt (encHeader w h pds fs ++ rest) 1 = 77 := by
  simp [encHeader, byteAt, u32le, u16le]

theorem encPixelLoop_no_msg (data : List Nat) (w h rs fs : Nat) (s : String) :
    encPixelLoop data w h rs fs ≠ Except.error (some s) := by
  apply joinM_no_msg
  intro y t
  apply joinM_no_msg
  intro x u
  exact bind_no_msg (readU8_no_msg _ _) (fun b =>
    bind_no_msg (writeCheck_no_msg _ _) (fun _ =>
    bind_no_msg (readU8_no_msg _ _) (fun g =>
    bind_no_msg (writeCheck_no_msg _ _) (fun _ =>
    bind_no_msg (readU8_no_msg _ _) (fun r =>
    bind_no_msg (writeCheck_no_msg _ _) (fun _ =>
    bind_no_msg (readU8_no_msg _ _) (fun a =>
    bind_no_msg (writeCheck_no_msg _ _) (fun _ v => by simp)))))))) u

/-- Evaluation of `encode_bmp` when the length check passes. -/
theorem encode_unfold {w h : Nat} {data : List Nat}
    (hlen : data.length = w * h * 4 % 4294967296) :
    encode_bmp w h data =
      encPixelLoop data w h (w * 4 % 4294967296)
          ((122 + w * 4 % 4294967296 * h % 4294967296) % 4294967296) >>= fun pixels =>
        Except.ok (encHeader w h (w * 4 % 4294967296 * h % 4294967296)
          ((122 + w * 4 % 4294967296 * h % 4294967296) % 4294967296) ++ pixels) := by
  simp only [encode_bmp, if_neg (show ¬ data.length ≠ w * h * 4 % 4294967296 from by omega)]

/-- C7 (amended): `encode_bmp` returns an error value exactly when the input
length differs from `width * height * 4` computed in `u32` arithmetic
(wrap-around modulo 2^32; without overflow this is plain `w*h*4`), and any
successful output starts with the BMP signature bytes.  When the length
check passes but the wrapped sizes are inconsistent with the data, the code
aborts on an out-of-bounds access instead of returning an error value, so
the claim's plain-arithmetic reading is false (see the counterexample). -/
theorem c7_encode_error_iff :
    ∀ (w h : Nat) (data : List Nat),
      ((∃ s, encode_bmp w h data = Except.error (some s))
        ↔ data.length ≠ w * h * 4 % 4294967296)
      ∧ (∀ out, encode_bmp w h data = Except.ok out
          → byteAt out 0 = 66 ∧ byteAt out 1 = 77) := by
  intro w h data
  by_cases hlen : data.length = w * h * 4 % 4294967296
  · rw [encode_unfold hlen]
    constructor
    · constructor
      · intro hs
        rcases hs with ⟨s, hs⟩
        exact absurd hs (bind_no_msg (encPixelLoop_no_msg data w h _ _)
          (fun pixels t => by simp) s)
      · intro hne
        exact absurd hlen hne
    · intro out hout
      cases hjm : encPixelLoop data w h (w * 4 % 4294967296)
          ((122 + w * 4 % 4294967296 * h % 4294967296) % 4294967296) with
      | error e => rw [hjm] at hout; simp at hout
      | ok pixels =>
        rw [hjm, res_bind_ok] at hout
        have : out = encHeader w h (w * 4 % 4294967296 * h % 4294967296)
            ((122 + w * 4 % 4294967296 * h % 4294967296) % 4294967296) ++ pixels := by
          simpa using hout.symm
        rw [this]
        exact encHeader_sig w h _ _ pixels
  · constructor
    · constructor
      · intro _; exact hlen
      · intro _
        refine ⟨"Data length mismatch: expected "
          ++ toString (w * h * 4 % 4294967296) ++ ", got " ++ toString data.length, ?_⟩
        rw [encode_bmp]
        rw [if_pos hlen]
        rfl
    · intro out hout
      rw [encode_bmp] at hout
      rw [if_pos hlen] at hout
      exact absurd hout (by simp [errMsg])

/-- Witness for C7: a mismatched length on small inputs produces an error. -/
theorem c7_encode_error_iff_witness :
    ∃ s, encode_bmp 2 2 [] = Except.error (some s) :=
  (c7_encode_error_iff 2 2 []).1.mpr (by decide)

set_option maxRecDepth 20000 in
/-- C7 (counterexample): with `width = 2^30`, `height = 4` and empty data the
length differs from `width * height * 4`, yet `encode_bmp` does not return an
error value: the wrapped `u32` length check passes and the encoder aborts on
an out-of-bounds read. -/
theorem c7_counterexample :
    ([] : List Nat).length ≠ 1073741824 * 4 * 4
      ∧ encode_bmp 1073741824 4 [] = Except.error none
      ∧ ∀ s, encode_bmp 1073741824 4 [] ≠ Except.error (some s) := by
  refine ⟨by norm_num, rfl, ?_⟩
  intro s h
  rw [show encode_bmp 1073741824 4 [] = Except.error none from rfl] at h
  simp at h

end Codec

namespace Codec

/-! ### Claim C10: mask selection for 32-bpp BITFIELDS images -/

theorem readU8_append_right2 {l1 l2 : List Nat} {i k : Nat} (h : i = l1.length + k) :
    readU8 (l1 ++ l2) i = readU8 l2 k := by rw [h, readU8_append_right]

/-- Decoding of any 1×1 32-bpp BITFIELDS buffer whose DIB size is below 52:
the default masks `0x00ff0000 / 0x0000ff00 / 0x000000ff / 0xff000000` are
used, so the BGRA word bytes come back as RGBA. -/
theorem decode32_default {buf : List Nat} {doff word : Nat}
    (hlen : 54 ≤ buf.length)
    (h0 : byteAt buf 0 = 66) (h1 : byteAt buf 1 = 77)
    (h10 : u32at buf 10 = doff)
    (hdib40 : 40 ≤ u32at buf 14) (hdib52 : ¬ 52 ≤ u32at buf 14)
    (h18 : i32at buf 18 = 1) (h22 : i32at buf 22 = 1)
    (h28 : u16at buf 28 = 32) (h30 : u32at buf 30 = 3)
    (hword : read_u32_le buf doff = Except.ok word) :
    decode_bmp buf = Except.ok [1, 0, 0, 0, 1, 0, 0, 0,
      word / 65536 % 256, word / 256 % 256, word % 256, word / 16777216 % 256] := by
  rw [decode_unfold (by omega) h0 h1, h10, h18, h22, h28, h30]
  rw [if_neg (by omega), if_neg (by norm_num), if_neg (by norm_num),
    if_neg (by norm_num), res_bind_ok, if_neg (by simp [hdib52]), res_bind_ok,
    if_neg (by simp [hdib52]), res_bind_ok, if_neg (by simp [hdib52]), res_bind_ok,
    if_neg (by simp [hdib52]), res_bind_ok]
  rw [joinM_ok (fun _ => [word / 65536 % 256, word / 256 % 256, word % 256,
    word / 16777216 % 256]) (fun y hy => ?_), res_bind_ok]
  · norm_num [u32le]
  · have hy0 : y = 0 := by omega
    subst hy0
    rw [joinM_ok (fun _ => [word / 65536 % 256, word / 256 % 256, word % 256,
      word / 16777216 % 256]) (fun x hx => ?_)]
    · norm_num
    · have hx0 : x = 0 := by omega
      subst hx0
      rw [bmpPixel, if_neg (by norm_num), if_neg (by norm_num), if_neg (by norm_num),
        if_neg (by norm_num), if_neg (by norm_num), if_pos rfl, if_pos rfl]
      rw [show doff + (if (1 : Int) < 0 then 0 else (1 : Int).natAbs - 1 - 0)
          * ((32 * (1 : Int).natAbs + 31) / 32 * 4) + 0 * 4 = doff from by norm_num]
      rw [hword, res_bind_ok]
      rw [apply_mask_red, apply_mask_green, apply_mask_blue, if_pos (by norm_num),
        apply_mask_alpha]

/-- Decoding of any 1×1 32-bpp BITFIELDS buffer whose DIB size is in
`[52, 56)`: the red/green/blue masks are read from buffer offsets 54/58/62
and the alpha mask defaults to `0xff000000`. -/
theorem decode32_masks {buf : List Nat} {doff word mr mg mb : Nat}
    (hlen : 54 ≤ buf.length)
    (h0 : byteAt buf 0 = 66) (h1 : byteAt buf 1 = 77)
    (h10 : u32at buf 10 = doff)
    (hdib52 : 52 ≤ u32at buf 14) (hdib56 : ¬ 56 ≤ u32at buf 14)
    (h18 : i32at buf 18 = 1) (h22 : i32at buf 22 = 1)
    (h28 : u16at buf 28 = 32) (h30 : u32at buf 30 = 3)
    (hmr : read_u32_le buf 54 = Except.ok mr)
    (hmg : read_u32_le buf 58 = Except.ok mg)
    (hmb : read_u32_le buf 62 = Except.ok mb)
    (hword : read_u32_le buf doff = Except.ok word) :
    decode_bmp buf = Except.ok [1, 0, 0, 0, 1, 0, 0, 0,
      apply_mask word mr, apply_mask word mg, apply_mask word mb,
      word / 16777216 % 256] := by
  rw [decode_unfold (by omega) h0 h1, h10, h18, h22, h28, h30]
  rw [if_neg (by omega), if_neg (by norm_num), if_neg (by norm_num),
    if_neg (by norm_num), res_bind_ok, if_pos ⟨rfl, hdib52⟩, hmr, res_bind_ok,
    if_pos ⟨rfl, hdib52⟩, hmg, res_bind_ok, if_pos ⟨rfl, hdib52⟩, hmb, res_bind_ok,
    if_pos ⟨rfl, hdib52⟩, if_neg hdib56, res_bind_ok]
  rw [joinM_ok (fun _ => [apply_mask word mr, apply_mask word mg, apply_mask word mb,
    word / 16777216 % 256]) (fun y hy => ?_), res_bind_ok]
  · norm_num [u32le]
  · have hy0 : y = 0 := by omega
    subst hy0
    rw [joinM_ok (fun _ => [apply_mask word mr, apply_mask word mg, apply_mask word mb,
      word / 16777216 % 256]) (fun x hx => ?_)]
    · norm_num
    · have hx0 : x = 0 := by omega
      subst hx0
      rw [bmpPixel, if_neg (by norm_num), if_neg (by norm_num), if_neg (by norm_num),
        if_neg (by norm_num), if_neg (by norm_num), if_pos rfl, if_pos rfl]
      rw [show doff + (if (1 : Int) < 0 then 0 else (1 : Int).natAbs - 1 - 0)
          * ((32 * (1 : Int).natAbs + 31) / 32 * 4) + 0 * 4 = doff from by norm_num]
      rw [hword, res_bind_ok]
      rw [if_pos (by norm_num), apply_mask_alpha]

end Codec

namespace Codec

/-- The 54 bytes of file header plus fixed DIB fields shared by the C10 image
family: pixel-data offset `14 + d`, DIB size `d`, width 1, height 1, one
plane, 32 bits per pixel, BITFIELDS compression, zero remaining fields. -/
def bmp32pre (d : Nat) : List Nat :=
  [66, 77, 0, 0, 0, 0, 0, 0, 0, 0, 14 + d, 0, 0, 0, d, 0, 0, 0,
    1, 0, 0, 0, 1, 0, 0, 0, 1, 0, 32, 0, 3, 0, 0, 0,
    0, 0, 0, 0, 0, 0, 0, 0, 0, 0, 0, 0, 0, 0, 0, 0, 0, 0, 0, 0]

/-- A 1×1 32-bpp BITFIELDS BMP with DIB size `d`: DIB bytes 40…d-1 are
`tail` (at buffer offsets 54…13+d) and the BGRA pixel word follows. -/
def bmp32of (d : Nat) (tail pix : List Nat) : List Nat := bmp32pre d ++ (tail ++ pix)

theorem bmp32pre_length (d : Nat) : (bmp32pre d).length = 54 := rfl

theorem bmp32of_length (d : Nat) (tail pix : List Nat) :
    (bmp32of d tail pix).length = 54 + (tail.length + pix.length) := by
  simp [bmp32of, bmp32pre_length]

/-- Reading the pixel word of a C10 family buffer at offset `14 + d`. -/
theorem bmp32of_word {d : Nat} {tail : List Nat} (p0 p1 p2 p3 : Nat)
    (htail : tail.length = d - 40) (hd : 40 ≤ d) :
    read_u32_le (bmp32of d tail [p0, p1, p2, p3]) (14 + d)
      = Except.ok (p0 + 256 * p1 + 65536 * p2 + 16777216 * p3) := by
  rw [read_u32_le, bmp32of]
  rw [readU8_append_right2 (show 14 + d = (bmp32pre d).length + (d - 40 + 0) from by
        rw [bmp32pre_length]; omega),
    readU8_append_right2 (show d - 40 + 0 = tail.length + 0 from by omega),
    show readU8 [p0, p1, p2, p3] 0 = Except.ok p0 from rfl, res_bind_ok]
  rw [readU8_append_right2 (show 14 + d + 1 = (bmp32pre d).length + (d - 40 + 1) from by
        rw [bmp32pre_length]; omega),
    readU8_append_right2 (show d - 40 + 1 = tail.length + 1 from by omega),
    show readU8 [p0, p1, p2, p3] 1 = Except.ok p1 from rfl, res_bind_ok]
  rw [readU8_append_right2 (show 14 + d + 2 = (bmp32pre d).length + (d - 40 + 2) from by
        rw [bmp32pre_length]; omega),
    readU8_append_right2 (show d - 40 + 2 = tail.length + 2 from by omega),
    show readU8 [p0, p1, p2, p3] 2 = Except.ok p2 from rfl, res_bind_ok]
  rw [readU8_append_right2 (show 14 + d + 3 = (bmp32pre d).length + (d - 40 + 3) from by
        rw [bmp32pre_length]; omega),
    readU8_append_right2 (show d - 40 + 3 = tail.length + 3 from by omega),
    show readU8 [p0, p1, p2, p3] 3 = Except.ok p3 from rfl, res_bind_ok]
  rfl

/-- Reading one of the three mask words at buffer offsets 54/58/62. -/
theorem bmp32of_mask {d : Nat} {rest pix : List Nat} (m : Nat) (hm : m < 4294967296) :
    read_u32_le (bmp32of d (u32le m ++ rest) pix) 54 = Except.ok m := by
  rw [read_u32_le, bmp32of]
  rw [readU8_append_right2 (show 54 = (bmp32pre d).length + 0 from by rw [bmp32pre_length]),
    readU8_append_left (by simp [u32le]),
    readU8_append_left (by simp [u32le]),
    show readU8 (u32le m) 0 = Except.ok (m % 256) from rfl, res_bind_ok]
  rw [readU8_append_right2 (show 54 + 1 = (bmp32pre d).length + 1 from by rw [bmp32pre_length]),
    readU8_append_left (by simp [u32le]),
    readU8_append_left (by simp [u32le]),
    show readU8 (u32le m) 1 = Except.ok (m / 256 % 256) from rfl, res_bind_ok]
  rw [readU8_append_right2 (show 54 + 2 = (bmp32pre d).length + 2 from by rw [bmp32pre_length]),
    readU8_append_left (by simp [u32le]),
    readU8_append_left (by simp [u32le]),
    show readU8 (u32le m) 2 = Except.ok (m / 65536 % 256) from rfl, res_bind_ok]
  rw [readU8_append_right2 (show 54 + 3 = (bmp32pre d).length + 3 from by rw [bmp32pre_length]),
    readU8_append_left (by simp [u32le]),
    readU8_append_left (by simp [u32le]),
    show readU8 (u32le m) 3 = Except.ok (m / 16777216 % 256) from rfl, res_bind_ok]
  exact congrArg Except.ok (by omega)

end Codec

namespace Codec

/-- Reading a mask word at buffer offset `54 + q` when the DIB tail starts
with `q` bytes `Q` followed by the mask's four bytes. -/
theorem bmp32of_mask_at {d q m : Nat} {Q rest pix : List Nat} (hm : m < 4294967296)
    (hq : Q.length = q) :
    read_u32_le (bmp32of d (Q ++ (u32le m ++ rest)) pix) (54 + q) = Except.ok m := by
  rw [read_u32_le, bmp32of, List.append_assoc Q (u32le m ++ rest) pix]
  rw [readU8_append_right2 (show 54 + q = (bmp32pre d).length + (q + 0) from by
        rw [bmp32pre_length]; omega),
    readU8_append_right2 (show q + 0 = Q.length + 0 from by omega),
    readU8_append_left (by simp [u32le]),
    readU8_append_left (by simp [u32le]),
    show readU8 (u32le m) 0 = Except.ok (m % 256) from rfl, res_bind_ok]
  rw [readU8_append_right2 (show 54 + q + 1 = (bmp32pre d).length + (q + 1) from by
        rw [bmp32pre_length]; omega),
    readU8_append_right2 (show q + 1 = Q.length + 1 from by omega),
    readU8_append_left (by simp [u32le]),
    readU8_append_left (by simp [u32le]),
    show readU8 (u32le m) 1 = Except.ok (m / 256 % 256) from rfl, res_bind_ok]
  rw [readU8_append_right2 (show 54 + q + 2 = (bmp32pre d).length + (q + 2) from by
        rw [bmp32pre_length]; omega),
    readU8_append_right2 (show q + 2 = Q.length + 2 from by omega),
    readU8_append_left (by simp [u32le]),
    readU8_append_left (by simp [u32le]),
    show readU8 (u32le m) 2 = Except.ok (m / 65536 % 256) from rfl, res_bind_ok]
  rw [readU8_append_right2 (show 54 + q + 3 = (bmp32pre d).length + (q + 3) from by
        rw [bmp32pre_length]; omega),
    readU8_append_right2 (show q + 3 = Q.length + 3 from by omega),
    readU8_append_left (by simp [u32le]),
    readU8_append_left (by simp [u32le]),
    show readU8 (u32le m) 3 = Except.ok (m / 16777216 % 256) from rfl, res_bind_ok]
  exact congrArg Except.ok (by omega)

/-- C10: a 32-bpp BITFIELDS image whose DIB header size `d` satisfies
`40 ≤ d < 52` decodes without failing, using the fixed default masks
`R=0x00ff0000, G=0x0000ff00, B=0x000000ff, A=0xff000000` (the stored BGRA
word `[p0,p1,p2,p3]` comes back as RGBA `[p2,p1,p0,p3]`); and when
`52 ≤ d < 56` the red/green/blue masks are read from buffer offsets
54/58/62 while the alpha mask defaults to `0xff000000` (the alpha output is
the word's top byte `p3`). -/
theorem c10_default_masks :
    (∀ d p0 p1 p2 p3 : Nat, 40 ≤ d → d < 52 →
      p0 < 256 → p1 < 256 → p2 < 256 → p3 < 256 →
      decode_bmp (bmp32of d (List.replicate (d - 40) 0) [p0, p1, p2, p3])
        = Except.ok [1, 0, 0, 0, 1, 0, 0, 0, p2, p1, p0, p3])
    ∧ (∀ d mr mg mb p0 p1 p2 p3 : Nat, 52 ≤ d → d < 56 →
        mr < 4294967296 → mg < 4294967296 → mb < 4294967296 →
        p0 < 256 → p1 < 256 → p2 < 256 → p3 < 256 →
        decode_bmp (bmp32of d (u32le mr ++ u32le mg ++ u32le mb ++ List.replicate (d - 52) 0)
            [p0, p1, p2, p3])
          = Except.ok [1, 0, 0, 0, 1, 0, 0, 0,
              apply_mask (p0 + 256 * p1 + 65536 * p2 + 16777216 * p3) mr,
              apply_mask (p0 + 256 * p1 + 65536 * p2 + 16777216 * p3) mg,
              apply_mask (p0 + 256 * p1 + 65536 * p2 + 16777216 * p3) mb,
              p3]) := by
  constructor
  · intro d p0 p1 p2 p3 hd40 hd52 hp0 hp1 hp2 hp3
    have h14 : u32at (bmp32of d (List.replicate (d - 40) 0) [p0, p1, p2, p3]) 14 = d := rfl
    have h10 : u32at (bmp32of d (List.replicate (d - 40) 0) [p0, p1, p2, p3]) 10
        = 14 + d := rfl
    have hbl : 54 ≤ (bmp32of d (List.replicate (d - 40) 0) [p0, p1, p2, p3]).length := by
      rw [bmp32of_length]; omega
    have hb0 : byteAt (bmp32of d (List.replicate (d - 40) 0) [p0, p1, p2, p3]) 0 = 66 := rfl
    have hb1 : byteAt (bmp32of d (List.replicate (d - 40) 0) [p0, p1, p2, p3]) 1 = 77 := rfl
    have hi18 : i32at (bmp32of d (List.replicate (d - 40) 0) [p0, p1, p2, p3]) 18 = 1 := rfl
    have hi22 : i32at (bmp32of d (List.replicate (d - 40) 0) [p0, p1, p2, p3]) 22 = 1 := rfl
    have hu28 : u16at (bmp32of d (List.replicate (d - 40) 0) [p0, p1, p2, p3]) 28 = 32 := rfl
    have hu30 : u32at (bmp32of d (List.replicate (d - 40) 0) [p0, p1, p2, p3]) 30 = 3 := rfl
    have hd1 : 40 ≤ u32at (bmp32of d (List.replicate (d - 40) 0) [p0, p1, p2, p3]) 14 := by
      rw [h14]; omega
    have hd2 : ¬ 52 ≤ u32at (bmp32of d (List.replicate (d - 40) 0) [p0, p1, p2, p3]) 14 := by
      rw [h14]; omega
    rw [decode32_default hbl hb0 hb1 h10 hd1 hd2 hi18 hi22 hu28 hu30
      (bmp32of_word p0 p1 p2 p3 (by simp) hd40)]
    exact congrArg Except.ok (by
      refine congrArg₂ _ rfl ?_
      norm_num
      refine ⟨by omega, by omega, by omega, by omega⟩)
  · intro d mr mg mb p0 p1 p2 p3 hd52 hd56 hmr hmg hmb hp0 hp1 hp2 hp3
    have htail : (u32le mr ++ u32le mg ++ u32le mb ++ List.replicate (d - 52) (0 : Nat)).length
        = d - 40 := by
      simp [u32le]
      omega
    have h14 : u32at (bmp32of d (u32le mr ++ u32le mg ++ u32le mb
        ++ List.replicate (d - 52) 0) [p0, p1, p2, p3]) 14 = d := rfl
    have h10 : u32at (bmp32of d (u32le mr ++ u32le mg ++ u32le mb
        ++ List.replicate (d - 52) 0) [p0, p1, p2, p3]) 10 = 14 + d := rfl
    have hmge : read_u32_le (bmp32of d (u32le mr ++ u32le mg ++ u32le mb
        ++ List.replicate (d - 52) 0) [p0, p1, p2, p3]) 58 = Except.ok mg := by
      have e : (u32le mr ++ u32le mg ++ u32le mb ++ List.replicate (d - 52) (0 : Nat))
          = u32le mr ++ (u32le mg ++ (u32le mb ++ List.replicate (d - 52) 0)) := by
        simp [List.append_assoc]
      rw [show (58 : Nat) = 54 + 4 from rfl, e]
      exact bmp32of_mask_at hmg (by simp [u32le])
    have hmbe : read_u32_le (bmp32of d (u32le mr ++ u32le mg ++ u32le mb
        ++ List.replicate (d - 52) 0) [p0, p1, p2, p3]) 62 = Except.ok mb := by
      have e : (u32le mr ++ u32le mg ++ u32le mb ++ List.replicate (d - 52) (0 : Nat))
          = (u32le mr ++ u32le mg) ++ (u32le mb ++ List.replicate (d - 52) 0) := by
        simp [List.append_assoc]
      rw [show (62 : Nat) = 54 + 8 from rfl, e]
      exact bmp32of_mask_at hmb (by simp [u32le])
    have hbl : 54 ≤ (bmp32of d (u32le mr ++ u32le mg ++ u32le mb
        ++ List.replicate (d - 52) 0) [p0, p1, p2, p3]).length := by
      rw [bmp32of_length]; omega
    have hb0 : byteAt (bmp32of d (u32le mr ++ u32le mg ++ u32le mb
        ++ List.replicate (d - 52) 0) [p0, p1, p2, p3]) 0 = 66 := rfl
    have hb1 : byteAt (bmp32of d (u32le mr ++ u32le mg ++ u32le mb
        ++ List.replicate (d - 52) 0) [p0, p1, p2, p3]) 1 = 77 := rfl
    have hi18 : i32at (bmp32of d (u32le mr ++ u32le mg ++ u32le mb
        ++ List.replicate (d - 52) 0) [p0, p1, p2, p3]) 18 = 1 := rfl
    have hi22 : i32at (bmp32of d (u32le mr ++ u32le mg ++ u32le mb
        ++ List.replicate (d - 52) 0) [p0, p1, p2, p3]) 22 = 1 := rfl
    have hu28 : u16at (bmp32of d (u32le mr ++ u32le mg ++ u32le mb
        ++ List.replicate (d - 52) 0) [p0, p1, p2, p3]) 28 = 32 := rfl
    have hu30 : u32at (bmp32of d (u32le mr ++ u32le mg ++ u32le mb
        ++ List.replicate (d - 52) 0) [p0, p1, p2, p3]) 30 = 3 := rfl
    have hd1 : 52 ≤ u32at (bmp32of d (u32le mr ++ u32le mg ++ u32le mb
        ++ List.replicate (d - 52) 0) [p0, p1, p2, p3]) 14 := by
      rw [h14]; omega
    have hd2 : ¬ 56 ≤ u32at (bmp32of d (u32le mr ++ u32le mg ++ u32le mb
        ++ List.replicate (d - 52) 0) [p0, p1, p2, p3]) 14 := by
      rw [h14]; omega
    rw [decode32_masks hbl hb0 hb1 h10 hd1 hd2 hi18 hi22 hu28 hu30
      (bmp32of_mask mr hmr) hmge hmbe
      (bmp32of_word p0 p1 p2 p3 htail (by omega))]
    exact congrArg Except.ok (by
      refine congrArg₂ _ rfl ?_
      norm_num
      omega)

/-- Witness for C10: a concrete 1×1 image with DIB size 40 decodes with the
default masks. -/
theorem c10_default_masks_witness :
    decode_bmp (bmp32of 40 (List.replicate 0 0) [10, 20, 30, 40])
      = Except.ok [1, 0, 0, 0, 1, 0, 0, 0, 30, 20, 10, 40] :=
  c10_default_masks.1 40 10 20 30 40 (by decide) (by decide) (by decide) (by decide)
    (by decide) (by decide)

end Codec

namespace Codec

/-! ### Claim C1: encode/decode round trip -/

theorem readU8_of_getElem {data : List Nat} {i b : Nat} (h : data[i]? = some b) :
    readU8 data i = Except.ok b := by
  simp [readU8, h]

theorem byteAt_lt {data : List Nat} (hb : ∀ v ∈ data, v < 256) (i : Nat) :
    byteAt data i < 256 := by
  rw [byteAt, List.getD_eq_getElem?_getD]
  cases hg : data[i]? with
  | none => simp
  | some v =>
    have := List.getElem?_mem hg
    simpa using hb v this

/-- Decoding of a general `w × h` 32-bpp BITFIELDS buffer whose DIB size is
108 and whose masks are the encoder's `0x00ff0000 / 0x0000ff00 / 0x000000ff /
0xff000000`, given the little-endian pixel words of each stored row.  Stored
row `y` (bottom-up) is emitted as output row `h - 1 - y`. -/
theorem decode32general {buf : List Nat} {w h : Nat} {word : Nat → Nat → Nat}
    (hw : 1 ≤ w) (hw31 : w < 2147483648) (hh : 1 ≤ h) (hh31 : h < 2147483648)
    (hlen : 54 ≤ buf.length)
    (h0 : byteAt buf 0 = 66) (h1 : byteAt buf 1 = 77)
    (h10 : u32at buf 10 = 122) (h14 : u32at buf 14 = 108)
    (h18 : i32at buf 18 = (w : Int)) (h22 : i32at buf 22 = (h : Int))
    (h28 : u16at buf 28 = 32) (h30 : u32at buf 30 = 3)
    (hmr : read_u32_le buf 54 = Except.ok 16711680)
    (hmg : read_u32_le buf 58 = Except.ok 65280)
    (hmb : read_u32_le buf 62 = Except.ok 255)
    (hma : read_u32_le buf 66 = Except.ok 4278190080)
    (hpix : ∀ y x, y < h → x < w →
      read_u32_le buf (122 + y * (4 * w) + x * 4) = Except.ok (word y x)) :
    decode_bmp buf = Except.ok (u32le w ++ u32le h ++
      ((List.range h).map (fun y => ((List.range w).map (fun x =>
        [word (h - 1 - y) x / 65536 % 256, word (h - 1 - y) x / 256 % 256,
          word (h - 1 - y) x % 256, word (h - 1 - y) x / 16777216 % 256])).flatten)).flatten) := by
  rw [decode_unfold (by omega) h0 h1, h10, h14, h18, h22, h28, h30]
  have hnw : ((w : Int)).natAbs = w := Int.natAbs_ofNat w
  have hnh : ((h : Int)).natAbs = h := Int.natAbs_ofNat h
  rw [hnw, hnh]
  rw [if_neg (by norm_num), if_neg (by omega), if_neg (by norm_num),
    if_neg (by norm_num), res_bind_ok, if_pos (by norm_num), hmr, res_bind_ok,
    if_pos (by norm_num), hmg, res_bind_ok, if_pos (by norm_num), hmb, res_bind_ok,
    if_pos (by norm_num), if_pos (by norm_num), hma, res_bind_ok]
  have hneg : ¬ ((h : Int) < 0) := by omega
  simp only [if_neg hneg]
  have hstride : (32 * w + 31) / 32 * 4 = 4 * w := by omega
  simp only [hstride]
  rw [joinM_ok (fun y => ((List.range w).map (fun x =>
      [word (h - 1 - y) x / 65536 % 256, word (h - 1 - y) x / 256 % 256,
        word (h - 1 - y) x % 256, word (h - 1 - y) x / 16777216 % 256])).flatten)
    (fun y hy => ?_), res_bind_ok]
  · rw [joinM_ok (fun x =>
      [word (h - 1 - y) x / 65536 % 256, word (h - 1 - y) x / 256 % 256,
        word (h - 1 - y) x % 256, word (h - 1 - y) x / 16777216 % 256])
      (fun x hx => ?_)]
    · rw [bmpPixel, if_neg (by norm_num), if_neg (by norm_num), if_neg (by norm_num),
        if_neg (by norm_num), if_neg (by norm_num), if_pos rfl, if_pos rfl]
      rw [hpix (h - 1 - y) x (by omega) hx, res_bind_ok]
      rw [apply_mask_red, apply_mask_green, apply_mask_blue, if_pos (by norm_num),
        apply_mask_alpha]

end Codec

namespace Codec

/-- Pixel bytes produced by the encoder when nothing overflows: row `y` holds
source row `h - 1 - y`, each pixel stored as BGRA. -/
def encPixels (w h : Nat) (data : List Nat) : List Nat :=
  ((List.range h).map (fun y => ((List.range w).map (fun x =>
    [byteAt data ((h - 1 - y) * w * 4 + x * 4 + 2),
      byteAt data ((h - 1 - y) * w * 4 + x * 4 + 1),
      byteAt data ((h - 1 - y) * w * 4 + x * 4),
      byteAt data ((h - 1 - y) * w * 4 + x * 4 + 3)])).flatten)).flatten

theorem encIdxLt {w h : Nat} (hh : 1 ≤ h) :
    ∀ y x, y < h → x < w → (h - 1 - y) * w * 4 + x * 4 + 3 < w * h * 4 := by
  intro y x hy hx
  obtain ⟨h2, rfl⟩ : ∃ h2, h = h2 + 1 := ⟨h - 1, by omega⟩
  have hb : (h2 + 1 - 1 - y) * w ≤ h2 * w := Nat.mul_le_mul_right w (by omega)
  have he : w * (h2 + 1) * 4 = h2 * w * 4 + w * 4 := by ring
  omega

theorem encDstLt {w h : Nat} (hh : 1 ≤ h) :
    ∀ y x, y < h → x < w → 122 + y * (w * 4) + x * 4 + 3 < 122 + w * h * 4 := by
  intro y x hy hx
  obtain ⟨h2, rfl⟩ : ∃ h2, h = h2 + 1 := ⟨h - 1, by omega⟩
  have hb : y * (w * 4) ≤ h2 * (w * 4) := Nat.mul_le_mul_right (w * 4) (by omega)
  have he : w * (h2 + 1) * 4 = h2 * (w * 4) + w * 4 := by ring
  omega

/-- Evaluation of the encoder on well-sized input without `u32` overflow. -/
theorem encode_ok {w h : Nat} {data : List Nat} (hw : 1 ≤ w) (hh : 1 ≤ h)
    (hov : 122 + w * h * 4 < 4294967296) (hlen : data.length = w * h * 4) :
    encode_bmp w h data
      = Except.ok (encHeader w h (w * h * 4) (122 + w * h * 4) ++ encPixels w h data) := by
  have hw4 : w * 4 ≤ w * h * 4 := by
    calc w * 4 = w * 1 * 4 := by ring
    _ ≤ w * h * 4 := by
        exact Nat.mul_le_mul_right 4 (Nat.mul_le_mul_left w hh)
  have e1 : w * h * 4 % 4294967296 = w * h * 4 := Nat.mod_eq_of_lt (by omega)
  have e2 : w * 4 % 4294967296 = w * 4 := Nat.mod_eq_of_lt (by omega)
  rw [encode_unfold (by rw [hlen, e1])]
  rw [e2]
  have e3 : w * 4 * h % 4294967296 = w * h * 4 := by
    rw [show w * 4 * h = w * h * 4 from by ring]
    exact e1
  rw [e3]
  have e4 : (122 + w * h * 4) % 4294967296 = 122 + w * h * 4 := Nat.mod_eq_of_lt (by omega)
  rw [e4]
  rw [encPixelLoop]
  rw [joinM_ok (fun y => ((List.range w).map (fun x =>
      [byteAt data ((h - 1 - y) * w * 4 + x * 4 + 2),
        byteAt data ((h - 1 - y) * w * 4 + x * 4 + 1),
        byteAt data ((h - 1 - y) * w * 4 + x * 4),
        byteAt data ((h - 1 - y) * w * 4 + x * 4 + 3)])).flatten)
    (by
      intro y hy
      rw [joinM_ok (fun x =>
        [byteAt data ((h - 1 - y) * w * 4 + x * 4 + 2),
          byteAt data ((h - 1 - y) * w * 4 + x * 4 + 1),
          byteAt data ((h - 1 - y) * w * 4 + x * 4),
          byteAt data ((h - 1 - y) * w * 4 + x * 4 + 3)])
        (by
          intro x hx
          have hidx := encIdxLt hh y x hy hx
          have hdst := encDstLt hh y x hy hx
          rw [readU8_ok (by omega), res_bind_ok,
            writeCheck, if_pos (by omega), res_bind_ok,
            readU8_ok (by omega), res_bind_ok,
            writeCheck, if_pos (by omega), res_bind_ok,
            readU8_ok (by omega), res_bind_ok,
            writeCheck, if_pos (by omega), res_bind_ok,
            readU8_ok (by omega), res_bind_ok,
            writeCheck, if_pos (by omega), res_bind_ok])]),
    res_bind_ok]
  rfl

end Codec

namespace Codec

theorem encHeader_length (w h pds fs : Nat) : (encHeader w h pds fs).length = 122 := by
  simp [encHeader, u32le, u16le]

/-- First 54 bytes of the encoder's header in flat form. -/
def encHdrA (w h pds fs : Nat) : List Nat :=
  [66, 77,
    fs % 256, fs / 256 % 256, fs / 65536 % 256, fs / 16777216 % 256,
    0, 0, 0, 0,
    122, 0, 0, 0,
    108, 0, 0, 0,
    w % 256, w / 256 % 256, w / 65536 % 256, w / 16777216 % 256,
    h % 256, h / 256 % 256, h / 65536 % 256, h / 16777216 % 256,
    1, 0,
    32, 0,
    3, 0, 0, 0,
    pds % 256, pds / 256 % 256, pds / 65536 % 256, pds / 16777216 % 256,
    19, 11, 0, 0,
    19, 11, 0, 0,
    0, 0, 0, 0,
    0, 0, 0, 0]

/-- Mask and color-space bytes of the encoder's header (offsets 54-73). -/
def encHdrB : List Nat :=
  [0, 0, 255, 0, 0, 255, 0, 0, 255, 0, 0, 0, 0, 0, 0, 255, 66, 71, 82, 115]

/-- Flat byte-list form of the encoder's header. -/
theorem encHeader_flat (w h pds fs : Nat) :
    encHeader w h pds fs = encHdrA w h pds fs ++ (encHdrB ++ List.replicate 48 0) := by
  simp [encHeader, encHdrA, encHdrB, u32le, u16le]

theorem encHdrA_length (w h pds fs : Nat) : (encHdrA w h pds fs).length = 54 := by
  simp [encHdrA]

theorem encHeader_b0 (w h pds fs : Nat) (rest : List Nat) :
    byteAt (encHeader w h pds fs ++ rest) 0 = 66 := by
  rw [encHeader_flat]; rfl

theorem encHeader_b1 (w h pds fs : Nat) (rest : List Nat) :
    byteAt (encHeader w h pds fs ++ rest) 1 = 77 := by
  rw [encHeader_flat]; rfl

theorem encHeader_r10 (w h pds fs : Nat) (rest : List Nat) :
    u32at (encHeader w h pds fs ++ rest) 10 = 122 := by
  rw [encHeader_flat]; rfl

theorem encHeader_r14 (w h pds fs : Nat) (rest : List Nat) :
    u32at (encHeader w h pds fs ++ rest) 14 = 108 := by
  rw [encHeader_flat]; rfl

theorem encHeader_r18 {w : Nat} (h pds fs : Nat) (rest : List Nat) (hw : w < 2147483648) :
    i32at (encHeader w h pds fs ++ rest) 18 = (w : Int) := by
  have e : u32at (encHeader w h pds fs ++ rest) 18 = w := by
    rw [encHeader_flat]
    show w % 256 + 256 * (w / 256 % 256) + 65536 * (w / 65536 % 256)
      + 16777216 * (w / 16777216 % 256) = w
    omega
  rw [i32at, e, toSigned32, if_pos (by omega)]

theorem encHeader_r22 {h : Nat} (w pds fs : Nat) (rest : List Nat) (hh : h < 2147483648) :
    i32at (encHeader w h pds fs ++ rest) 22 = (h : Int) := by
  have e : u32at (encHeader w h pds fs ++ rest) 22 = h := by
    rw [encHeader_flat]
    show h % 256 + 256 * (h / 256 % 256) + 65536 * (h / 65536 % 256)
      + 16777216 * (h / 16777216 % 256) = h
    omega
  rw [i32at, e, toSigned32, if_pos (by omega)]

theorem encHeader_r28 (w h pds fs : Nat) (rest : List Nat) :
    u16at (encHeader w h pds fs ++ rest) 28 = 32 := by
  rw [encHeader_flat]; rfl

theorem encHeader_r30 (w h pds fs : Nat) (rest : List Nat) :
    u32at (encHeader w h pds fs ++ rest) 30 = 3 := by
  rw [encHeader_flat]; rfl

theorem encHeader_m54 (w h pds fs : Nat) (rest : List Nat) :
    read_u32_le (encHeader w h pds fs ++ rest) 54 = Except.ok 16711680 := by
  rw [encHeader_flat, List.append_assoc, List.append_assoc, read_u32_le,
    readU8_append_right2 (show (54 : Nat) = (encHdrA w h pds fs).length + 0 from by
      rw [encHdrA_length]),
    readU8_append_right2 (show (54 : Nat) + 1 = (encHdrA w h pds fs).length + 1 from by
      rw [encHdrA_length]),
    readU8_append_right2 (show (54 : Nat) + 2 = (encHdrA w h pds fs).length + 2 from by
      rw [encHdrA_length]),
    readU8_append_right2 (show (54 : Nat) + 3 = (encHdrA w h pds fs).length + 3 from by
      rw [encHdrA_length])]
  rw [show readU8 (encHdrB ++ (List.replicate 48 0 ++ rest)) 0 = Except.ok 0 from rfl,
    res_bind_ok,
    show readU8 (encHdrB ++ (List.replicate 48 0 ++ rest)) 1 = Except.ok 0 from rfl,
    res_bind_ok,
    show readU8 (encHdrB ++ (List.replicate 48 0 ++ rest)) 2 = Except.ok 255 from rfl,
    res_bind_ok,
    show readU8 (encHdrB ++ (List.replicate 48 0 ++ rest)) 3 = Except.ok 0 from rfl,
    res_bind_ok, res_pure_eq]

theorem encHeader_m58 (w h pds fs : Nat) (rest : List Nat) :
    read_u32_le (encHeader w h pds fs ++ rest) 58 = Except.ok 65280 := by
  rw [encHeader_flat, List.append_assoc, List.append_assoc, read_u32_le,
    readU8_append_right2 (show (58 : Nat) = (encHdrA w h pds fs).length + 4 from by
      rw [encHdrA_length]),
    readU8_append_right2 (show (58 : Nat) + 1 = (encHdrA w h pds fs).length + 5 from by
      rw [encHdrA_length]),
    readU8_append_right2 (show (58 : Nat) + 2 = (encHdrA w h pds fs).length + 6 from by
      rw [encHdrA_length]),
    readU8_append_right2 (show (58 : Nat) + 3 = (encHdrA w h pds fs).length + 7 from by
      rw [encHdrA_length])]
  rw [show readU8 (encHdrB ++ (List.replicate 48 0 ++ rest)) 4 = Except.ok 0 from rfl,
    res_bind_ok,
    show readU8 (encHdrB ++ (List.replicate 48 0 ++ rest)) 5 = Except.ok 255 from rfl,
    res_bind_ok,
    show readU8 (encHdrB ++ (List.replicate 48 0 ++ rest)) 6 = Except.ok 0 from rfl,
    res_bind_ok,
    show readU8 (encHdrB ++ (List.replicate 48 0 ++ rest)) 7 = Except.ok 0 from rfl,
    res_bind_ok, res_pure_eq]

theorem encHeader_m62 (w h pds fs : Nat) (rest : List Nat) :
    read_u32_le (encHeader w h pds fs ++ rest) 62 = Except.ok 255 := by
  rw [encHeader_flat, List.append_assoc, List.append_assoc, read_u32_le,
    readU8_append_right2 (show (62 : Nat) = (encHdrA w h pds fs).length + 8 from by
      rw [encHdrA_length]),
    readU8_append_right2 (show (62 : Nat) + 1 = (encHdrA w h pds fs).length + 9 from by
      rw [encHdrA_length]),
    readU8_append_right2 (show (62 : Nat) + 2 = (encHdrA w h pds fs).length + 10 from by
      rw [encHdrA_length]),
    readU8_append_right2 (show (62 : Nat) + 3 = (encHdrA w h pds fs).length + 11 from by
      rw [encHdrA_length])]
  rw [show readU8 (encHdrB ++ (List.replicate 48 0 ++ rest)) 8 = Except.ok 255 from rfl,
    res_bind_ok,
    show readU8 (encHdrB ++ (List.replicate 48 0 ++ rest)) 9 = Except.ok 0 from rfl,
    res_bind_ok,
    show readU8 (encHdrB ++ (List.replicate 48 0 ++ rest)) 10 = Except.ok 0 from rfl,
    res_bind_ok,
    show readU8 (encHdrB ++ (List.replicate 48 0 ++ rest)) 11 = Except.ok 0 from rfl,
    res_bind_ok, res_pure_eq]

theorem encHeader_m66 (w h pds fs : Nat) (rest : List Nat) :
    read_u32_le (encHeader w h pds fs ++ rest) 66 = Except.ok 4278190080 := by
  rw [encHeader_flat, List.append_assoc, List.append_assoc, read_u32_le,
    readU8_append_right2 (show (66 : Nat) = (encHdrA w h pds fs).length + 12 from by
      rw [encHdrA_length]),
    readU8_append_right2 (show (66 : Nat) + 1 = (encHdrA w h pds fs).length + 13 from by
      rw [encHdrA_length]),
    readU8_append_right2 (show (66 : Nat) + 2 = (encHdrA w h pds fs).length + 14 from by
      rw [encHdrA_length]),
    readU8_append_right2 (show (66 : Nat) + 3 = (encHdrA w h pds fs).length + 15 from by
      rw [encHdrA_length])]
  rw [show readU8 (encHdrB ++ (List.replicate 48 0 ++ rest)) 12 = Except.ok 0 from rfl,
    res_bind_ok,
    show readU8 (encHdrB ++ (List.replicate 48 0 ++ rest)) 13 = Except.ok 0 from rfl,
    res_bind_ok,
    show readU8 (encHdrB ++ (List.replicate 48 0 ++ rest)) 14 = Except.ok 0 from rfl,
    res_bind_ok,
    show readU8 (encHdrB ++ (List.replicate 48 0 ++ rest)) 15 = Except.ok 255 from rfl,
    res_bind_ok, res_pure_eq]

end Codec

namespace Codec

theorem encPixels_row_length {w h : Nat} {data : List Nat} (y : Nat) :
    (((List.range w).map (fun x =>
      [byteAt data ((h - 1 - y) * w * 4 + x * 4 + 2),
        byteAt data ((h - 1 - y) * w * 4 + x * 4 + 1),
        byteAt data ((h - 1 - y) * w * 4 + x * 4),
        byteAt data ((h - 1 - y) * w * 4 + x * 4 + 3)])).flatten).length = 4 * w := by
  exact (flatten_uniform_length (fun x =>
    [byteAt data ((h - 1 - y) * w * 4 + x * 4 + 2),
      byteAt data ((h - 1 - y) * w * 4 + x * 4 + 1),
      byteAt data ((h - 1 - y) * w * 4 + x * 4),
      byteAt data ((h - 1 - y) * w * 4 + x * 4 + 3)]) 4 w (fun j _ => rfl)).trans
    (Nat.mul_comm w 4)

theorem encPixels_getElem {w h : Nat} {data : List Nat} (y x c : Nat)
    (hy : y < h) (hx : x < w) (hc : c < 4) :
    (encPixels w h data)[y * (4 * w) + (x * 4 + c)]?
      = [byteAt data ((h - 1 - y) * w * 4 + x * 4 + 2),
          byteAt data ((h - 1 - y) * w * 4 + x * 4 + 1),
          byteAt data ((h - 1 - y) * w * 4 + x * 4),
          byteAt data ((h - 1 - y) * w * 4 + x * 4 + 3)][c]? := by
  rw [encPixels]
  rw [blockGet h (fun y => ((List.range w).map (fun x =>
      [byteAt data ((h - 1 - y) * w * 4 + x * 4 + 2),
        byteAt data ((h - 1 - y) * w * 4 + x * 4 + 1),
        byteAt data ((h - 1 - y) * w * 4 + x * 4),
        byteAt data ((h - 1 - y) * w * 4 + x * 4 + 3)])).flatten) y (x * 4 + c)
    (fun j _ => encPixels_row_length j) hy (by omega)]
  rw [show x * 4 + c = x * 4 + c from rfl]
  rw [blockGet w (fun x =>
      [byteAt data ((h - 1 - y) * w * 4 + x * 4 + 2),
        byteAt data ((h - 1 - y) * w * 4 + x * 4 + 1),
        byteAt data ((h - 1 - y) * w * 4 + x * 4),
        byteAt data ((h - 1 - y) * w * 4 + x * 4 + 3)]) x c
    (fun j _ => rfl) hx hc]

theorem encPix_read {w h pds fs : Nat} {data : List Nat} (y x : Nat)
    (hy : y < h) (hx : x < w) :
    read_u32_le (encHeader w h pds fs ++ encPixels w h data) (122 + y * (4 * w) + x * 4)
      = Except.ok (byteAt data ((h - 1 - y) * w * 4 + x * 4 + 2)
          + 256 * byteAt data ((h - 1 - y) * w * 4 + x * 4 + 1)
          + 65536 * byteAt data ((h - 1 - y) * w * 4 + x * 4)
          + 16777216 * byteAt data ((h - 1 - y) * w * 4 + x * 4 + 3)) := by
  rw [read_u32_le,
    readU8_append_right2 (show 122 + y * (4 * w) + x * 4
      = (encHeader w h pds fs).length + (y * (4 * w) + (x * 4 + 0)) from by
        rw [encHeader_length]; omega),
    readU8_of_getElem ((encPixels_getElem y x 0 hy hx (by omega)).trans rfl), res_bind_ok,
    readU8_append_right2 (show 122 + y * (4 * w) + x * 4 + 1
      = (encHeader w h pds fs).length + (y * (4 * w) + (x * 4 + 1)) from by
        rw [encHeader_length]; omega),
    readU8_of_getElem ((encPixels_getElem y x 1 hy hx (by omega)).trans rfl), res_bind_ok,
    readU8_append_right2 (show 122 + y * (4 * w) + x * 4 + 2
      = (encHeader w h pds fs).length + (y * (4 * w) + (x * 4 + 2)) from by
        rw [encHeader_length]; omega),
    readU8_of_getElem ((encPixels_getElem y x 2 hy hx (by omega)).trans rfl), res_bind_ok,
    readU8_append_right2 (show 122 + y * (4 * w) + x * 4 + 3
      = (encHeader w h pds fs).length + (y * (4 * w) + (x * 4 + 3)) from by
        rw [encHeader_length]; omega),
    readU8_of_getElem ((encPixels_getElem y x 3 hy hx (by omega)).trans rfl), res_bind_ok,
    res_pure_eq]
  rfl

end Codec

namespace Codec

set_option maxHeartbeats 800000 in
/-- C1 (amended): for dimensions at least 1×1 whose BMP file size does not
overflow `u32` (`122 + w*h*4 < 2^32`) and an RGBA buffer of exactly
`w*h*4` bytes, decoding the result of `encode_bmp` succeeds and yields the
little-endian 32-bit width, then the height, then the original RGBA bytes
unchanged.  (For `w = 0` or `h = 0` the encoder succeeds but the decoder
rejects the image, so the claim's unrestricted form is false; see the
counterexample.) -/
theorem c1_roundtrip :
    ∀ (w h : Nat) (data : List Nat), 1 ≤ w → 1 ≤ h → 122 + w * h * 4 < 4294967296 →
      data.length = w * h * 4 → (∀ b ∈ data, b < 256) →
      (encode_bmp w h data).bind decode_bmp = Except.ok (u32le w ++ u32le h ++ data) := by
  intro w h data hw hh hov hlen hbytes
  have hw4 : w * 4 ≤ w * h * 4 := by
    calc w * 4 = w * 1 * 4 := by ring
    _ ≤ w * h * 4 := Nat.mul_le_mul_right 4 (Nat.mul_le_mul_left w hh)
  have hh4 : h * 4 ≤ w * h * 4 := by
    calc h * 4 = 1 * h * 4 := by ring
    _ ≤ w * h * 4 := Nat.mul_le_mul_right 4 (Nat.mul_le_mul_right h hw)
  have hw31 : w < 2147483648 := by omega
  have hh31 : h < 2147483648 := by omega
  rw [encode_ok hw hh hov hlen, except_bind_ok]
  rw [decode32general hw hw31 hh hh31
    (by rw [List.length_append, encHeader_length]; omega)
    (encHeader_b0 w h (w * h * 4) (122 + w * h * 4) (encPixels w h data))
    (encHeader_b1 w h (w * h * 4) (122 + w * h * 4) (encPixels w h data))
    (encHeader_r10 w h (w * h * 4) (122 + w * h * 4) (encPixels w h data))
    (encHeader_r14 w h (w * h * 4) (122 + w * h * 4) (encPixels w h data))
    (encHeader_r18 h (w * h * 4) (122 + w * h * 4) (encPixels w h data) hw31)
    (encHeader_r22 w (w * h * 4) (122 + w * h * 4) (encPixels w h data) hh31)
    (encHeader_r28 w h (w * h * 4) (122 + w * h * 4) (encPixels w h data))
    (encHeader_r30 w h (w * h * 4) (122 + w * h * 4) (encPixels w h data))
    (encHeader_m54 w h (w * h * 4) (122 + w * h * 4) (encPixels w h data))
    (encHeader_m58 w h (w * h * 4) (122 + w * h * 4) (encPixels w h data))
    (encHeader_m62 w h (w * h * 4) (122 + w * h * 4) (encPixels w h data))
    (encHeader_m66 w h (w * h * 4) (122 + w * h * 4) (encPixels w h data))
    (fun y x hy hx => encPix_read y x hy hx)]
  have hfinal : ((List.range h).map (fun y => ((List.range w).map (fun x =>
      [(fun y x => byteAt data ((h - 1 - y) * w * 4 + x * 4 + 2)
          + 256 * byteAt data ((h - 1 - y) * w * 4 + x * 4 + 1)
          + 65536 * byteAt data ((h - 1 - y) * w * 4 + x * 4)
          + 16777216 * byteAt data ((h - 1 - y) * w * 4 + x * 4 + 3)) (h - 1 - y) x / 65536 % 256,
        (fun y x => byteAt data ((h - 1 - y) * w * 4 + x * 4 + 2)
          + 256 * byteAt data ((h - 1 - y) * w * 4 + x * 4 + 1)
          + 65536 * byteAt data ((h - 1 - y) * w * 4 + x * 4)
          + 16777216 * byteAt data ((h - 1 - y) * w * 4 + x * 4 + 3)) (h - 1 - y) x / 256 % 256,
        (fun y x => byteAt data ((h - 1 - y) * w * 4 + x * 4 + 2)
          + 256 * byteAt data ((h - 1 - y) * w * 4 + x * 4 + 1)
          + 65536 * byteAt data ((h - 1 - y) * w * 4 + x * 4)
          + 16777216 * byteAt data ((h - 1 - y) * w * 4 + x * 4 + 3)) (h - 1 - y) x % 256,
        (fun y x => byteAt data ((h - 1 - y) * w * 4 + x * 4 + 2)
          + 256 * byteAt data ((h - 1 - y) * w * 4 + x * 4 + 1)
          + 65536 * byteAt data ((h - 1 - y) * w * 4 + x * 4)
          + 16777216 * byteAt data ((h - 1 - y) * w * 4 + x * 4 + 3)) (h - 1 - y) x / 16777216
            % 256])).flatten)).flatten = data := by
    calc ((List.range h).map (fun y => ((List.range w).map (fun x =>
        [(fun y x => byteAt data ((h - 1 - y) * w * 4 + x * 4 + 2)
            + 256 * byteAt data ((h - 1 - y) * w * 4 + x * 4 + 1)
            + 65536 * byteAt data ((h - 1 - y) * w * 4 + x * 4)
            + 16777216 * byteAt data ((h - 1 - y) * w * 4 + x * 4 + 3)) (h - 1 - y) x / 65536 % 256,
          (fun y x => byteAt data ((h - 1 - y) * w * 4 + x * 4 + 2)
            + 256 * byteAt data ((h - 1 - y) * w * 4 + x * 4 + 1)
            + 65536 * byteAt data ((h - 1 - y) * w * 4 + x * 4)
            + 16777216 * byteAt data ((h - 1 - y) * w * 4 + x * 4 + 3)) (h - 1 - y) x / 256 % 256,
          (fun y x => byteAt data ((h - 1 - y) * w * 4 + x * 4 + 2)
            + 256 * byteAt data ((h - 1 - y) * w * 4 + x * 4 + 1)
            + 65536 * byteAt data ((h - 1 - y) * w * 4 + x * 4)
            + 16777216 * byteAt data ((h - 1 - y) * w * 4 + x * 4 + 3)) (h - 1 - y) x % 256,
          (fun y x => byteAt data ((h - 1 - y) * w * 4 + x * 4 + 2)
            + 256 * byteAt data ((h - 1 - y) * w * 4 + x * 4 + 1)
            + 65536 * byteAt data ((h - 1 - y) * w * 4 + x * 4)
            + 16777216 * byteAt data ((h - 1 - y) * w * 4 + x * 4 + 3)) (h - 1 - y) x / 16777216
              % 256])).flatten)).flatten
        = ((List.range h).map (fun y => ((List.range w).map (fun x =>
            [byteAt data (4 * (y * w + x)), byteAt data (4 * (y * w + x) + 1),
              byteAt data (4 * (y * w + x) + 2), byteAt data (4 * (y * w + x) + 3)])).flatten)).flatten := by
          refine congrArg List.flatten (List.map_congr_left ?_)
          intro y hy
          refine congrArg List.flatten (List.map_congr_left ?_)
          intro x hx
          have hy2 := List.mem_range.mp hy
          have hx2 := List.mem_range.mp hx
          have ey : h - 1 - (h - 1 - y) = y := by omega
          show [(byteAt data ((h - 1 - (h - 1 - y)) * w * 4 + x * 4 + 2)
              + 256 * byteAt data ((h - 1 - (h - 1 - y)) * w * 4 + x * 4 + 1)
              + 65536 * byteAt data ((h - 1 - (h - 1 - y)) * w * 4 + x * 4)
              + 16777216 * byteAt data ((h - 1 - (h - 1 - y)) * w * 4 + x * 4 + 3)) / 65536 % 256,
            (byteAt data ((h - 1 - (h - 1 - y)) * w * 4 + x * 4 + 2)
              + 256 * byteAt data ((h - 1 - (h - 1 - y)) * w * 4 + x * 4 + 1)
              + 65536 * byteAt data ((h - 1 - (h - 1 - y)) * w * 4 + x * 4)
              + 16777216 * byteAt data ((h - 1 - (h - 1 - y)) * w * 4 + x * 4 + 3)) / 256 % 256,
            (byteAt data ((h - 1 - (h - 1 - y)) * w * 4 + x * 4 + 2)
              + 256 * byteAt data ((h - 1 - (h - 1 - y)) * w * 4 + x * 4 + 1)
              + 65536 * byteAt data ((h - 1 - (h - 1 - y)) * w * 4 + x * 4)
              + 16777216 * byteAt data ((h - 1 - (h - 1 - y)) * w * 4 + x * 4 + 3)) % 256,
            (byteAt data ((h - 1 - (h - 1 - y)) * w * 4 + x * 4 + 2)
              + 256 * byteAt data ((h - 1 - (h - 1 - y)) * w * 4 + x * 4 + 1)
              + 65536 * byteAt data ((h - 1 - (h - 1 - y)) * w * 4 + x * 4)
              + 16777216 * byteAt data ((h - 1 - (h - 1 - y)) * w * 4 + x * 4 + 3)) / 16777216 % 256]
            = [byteAt data (4 * (y * w + x)), byteAt data (4 * (y * w + x) + 1),
                byteAt data (4 * (y * w + x) + 2), byteAt data (4 * (y * w + x) + 3)]
          rw [ey]
          rw [show 4 * (y * w + x) = y * w * 4 + x * 4 from by ring]
          have b0 := byteAt_lt hbytes (y * w * 4 + x * 4)
          have b1 := byteAt_lt hbytes (y * w * 4 + x * 4 + 1)
          have b2 := byteAt_lt hbytes (y * w * 4 + x * 4 + 2)
          have b3 := byteAt_lt hbytes (y * w * 4 + x * 4 + 3)
          refine List.cons_eq_cons.mpr ⟨by omega, ?_⟩
          refine List.cons_eq_cons.mpr ⟨by omega, ?_⟩
          refine List.cons_eq_cons.mpr ⟨by omega, ?_⟩
          refine List.cons_eq_cons.mpr ⟨by omega, rfl⟩
      _ = ((List.range (h * w)).map (fun k =>
            [byteAt data (4 * k), byteAt data (4 * k + 1),
              byteAt data (4 * k + 2), byteAt data (4 * k + 3)])).flatten :=
          @flatten_nested (fun k => [byteAt data (4 * k), byteAt data (4 * k + 1),
            byteAt data (4 * k + 2), byteAt data (4 * k + 3)]) h w
      _ = data := flatten_chunks4 (h * w) data (by rw [hlen]; ring)
  rw [hfinal]

/-- Witness for C1: the round trip on the 2×2 test image of the code base. -/
theorem c1_roundtrip_witness :
    (encode_bmp 2 2 [255, 0, 0, 255, 0, 255, 0, 255, 0, 0, 255, 255, 255, 255, 255, 255]).bind
        decode_bmp
      = Except.ok (u32le 2 ++ u32le 2
          ++ [255, 0, 0, 255, 0, 255, 0, 255, 0, 0, 255, 255, 255, 255, 255, 255]) :=
  c1_roundtrip 2 2 [255, 0, 0, 255, 0, 255, 0, 255, 0, 0, 255, 255, 255, 255, 255, 255]
    (by decide) (by decide) (by decide) (by decide) (by decide)

set_option maxRecDepth 20000 in
/-- C1 (counterexample): with `w = h = 0` and an empty RGBA buffer the
encoder succeeds, but decoding its output fails with the invalid-dimensions
error, so the unrestricted round-trip claim is false. -/
theorem c1_counterexample :
    (encode_bmp 0 0 []).bind decode_bmp = Except.error (some "Invalid dimensions: 0x0") := by
  rfl

end Codec

namespace Codec

/-- C6: whenever `decode_bmp` succeeds on a byte buffer, the header-only
dimension query `get_bmp_dimensions` succeeds as well and returns exactly the
width and height stored little-endian in the first 8 bytes of the decode
output. -/
theorem c6_dimension_consistency :
    ∀ (data out : List Nat), (∀ b ∈ data, b < 256) →
      decode_bmp data = Except.ok out →
      8 ≤ out.length ∧ get_bmp_dimensions data = Except.ok [u32at out 0, u32at out 4] := by
  intro data out hbytes hok
  by_cases h54 : data.length < 54
  · rw [decode_bmp, if_pos h54] at hok
    exact absurd hok (by simp [errMsg])
  by_cases hb0 : byteAt data 0 = 66
  case neg =>
    rw [decode_bmp, if_neg h54, readU8_ok (by omega), res_bind_ok,
      readU8_ok (by omega), res_bind_ok, if_pos (Or.inl hb0)] at hok
    exact absurd hok (by simp [errMsg])
  by_cases hb1 : byteAt data 1 = 77
  case neg =>
    rw [decode_bmp, if_neg h54, readU8_ok (by omega), res_bind_ok,
      readU8_ok (by omega), res_bind_ok, if_pos (Or.inr hb1)] at hok
    exact absurd hok (by simp [errMsg])
  rw [decode_unfold h54 hb0 hb1] at hok
  by_cases hdib : u32at data 14 < 40
  · rw [if_pos hdib] at hok
    exact absurd hok (by simp [errMsg])
  rw [if_neg hdib] at hok
  by_cases hdims : (i32at data 18).natAbs = 0 ∨ (i32at data 22).natAbs = 0
  · rw [if_pos hdims] at hok
    exact absurd hok (by simp [errMsg])
  rw [if_neg hdims] at hok
  by_cases hcomp : u32at data 30 ≠ 0 ∧ u32at data 30 ≠ 3
  · rw [if_pos hcomp] at hok
    exact absurd hok (by simp [errMsg])
  rw [if_neg hcomp] at hok
  cases htab : (if u16at data 28 ≤ 8 then
      (if data.length < 14 + u32at data 14 + (1 <<< u16at data 28) * 4 then
        (errMsg "BMP data too small for color table" : Res (List Nat))
      else Except.ok ((data.drop (14 + u32at data 14)).take ((1 <<< u16at data 28) * 4)))
    else Except.ok []) with
  | error e => rw [htab, res_bind_err] at hok; exact absurd hok (by simp)
  | ok table =>
  rw [htab, res_bind_ok] at hok
  cases hrm : (if u32at data 30 = 3 ∧ 52 ≤ u32at data 14 then read_u32_le data 54
      else Except.ok 16711680) with
  | error e => rw [hrm, res_bind_err] at hok; exact absurd hok (by simp)
  | ok rm =>
  rw [hrm, res_bind_ok] at hok
  cases hgm : (if u32at data 30 = 3 ∧ 52 ≤ u32at data 14 then read_u32_le data 58
      else Except.ok 65280) with
  | error e => rw [hgm, res_bind_err] at hok; exact absurd hok (by simp)
  | ok gm =>
  rw [hgm, res_bind_ok] at hok
  cases hbm : (if u32at data 30 = 3 ∧ 52 ≤ u32at data 14 then read_u32_le data 62
      else Except.ok 255) with
  | error e => rw [hbm, res_bind_err] at hok; exact absurd hok (by simp)
  | ok bm =>
  rw [hbm, res_bind_ok] at hok
  cases ham : (if u32at data 30 = 3 ∧ 52 ≤ u32at data 14 then
      (if 56 ≤ u32at data 14 then read_u32_le data 66 else Except.ok 4278190080)
    else Except.ok 4278190080) with
  | error e => rw [ham, res_bind_err] at hok; exact absurd hok (by simp)
  | ok am =>
  rw [ham, res_bind_ok] at hok
  cases hpix : joinM (i32at data 22).natAbs (fun y =>
      joinM (i32at data 18).natAbs (fun x =>
        bmpPixel data (u16at data 28) (u32at data 30) table rm gm bm am
          (u32at data 10 + (if i32at data 22 < 0 then y else (i32at data 22).natAbs - 1 - y)
            * ((u16at data 28 * (i32at data 18).natAbs + 31) / 32 * 4)) x)) with
  | error e => rw [hpix, res_bind_err] at hok; exact absurd hok (by simp)
  | ok pixels =>
  rw [hpix, res_bind_ok] at hok
  have hout : out = u32le (i32at data 18).natAbs ++ u32le (i32at data 22).natAbs ++ pixels := by
    have := (Except.ok.injEq _ _).mp hok
    exact this.symm
  have hu18 : u32at data 18 < 4294967296 := by
    have h18 := byteAt_lt hbytes 18
    have h19 := byteAt_lt hbytes (18 + 1)
    have h20 := byteAt_lt hbytes (18 + 2)
    have h21 := byteAt_lt hbytes (18 + 3)
    unfold u32at
    omega
  have hu22 : u32at data 22 < 4294967296 := by
    have h22 := byteAt_lt hbytes 22
    have h23 := byteAt_lt hbytes (22 + 1)
    have h24 := byteAt_lt hbytes (22 + 2)
    have h25 := byteAt_lt hbytes (22 + 3)
    unfold u32at
    omega
  have hw32 : (i32at data 18).natAbs < 4294967296 := by
    unfold i32at toSigned32
    split_ifs <;> omega
  have hh32 : (i32at data 22).natAbs < 4294967296 := by
    unfold i32at toSigned32
    split_ifs <;> omega
  have e0 : u32at out 0 = (i32at data 18).natAbs := by
    rw [hout]
    calc u32at (u32le (i32at data 18).natAbs ++ u32le (i32at data 22).natAbs ++ pixels) 0
        = (i32at data 18).natAbs % 256 + 256 * ((i32at data 18).natAbs / 256 % 256)
          + 65536 * ((i32at data 18).natAbs / 65536 % 256)
          + 16777216 * ((i32at data 18).natAbs / 16777216 % 256) := by
          simp [u32at, byteAt, u32le]
      _ = (i32at data 18).natAbs % 4294967296 := u32le_readback (i32at data 18).natAbs
      _ = (i32at data 18).natAbs := Nat.mod_eq_of_lt hw32
  have e4 : u32at out 4 = (i32at data 22).natAbs := by
    rw [hout]
    calc u32at (u32le (i32at data 18).natAbs ++ u32le (i32at data 22).natAbs ++ pixels) 4
        = (i32at data 22).natAbs % 256 + 256 * ((i32at data 22).natAbs / 256 % 256)
          + 65536 * ((i32at data 22).natAbs / 65536 % 256)
          + 16777216 * ((i32at data 22).natAbs / 16777216 % 256) := by
          simp [u32at, byteAt, u32le]
      _ = (i32at data 22).natAbs % 4294967296 := u32le_readback (i32at data 22).natAbs
      _ = (i32at data 22).natAbs := Nat.mod_eq_of_lt hh32
  constructor
  · rw [hout]
    simp [u32le]
  · rw [e0, e4, get_bmp_dimensions, if_neg (by omega), readU8_ok (by omega), res_bind_ok,
      readU8_ok (by omega), res_bind_ok, if_neg (by simp [hb0, hb1]),
      read_i32_le_ok (by omega), res_bind_ok, read_i32_le_ok (by omega), res_bind_ok]

/-- A valid 58-byte 24-bpp 1×1 BMP used as the C6 witness input. -/
def c6buf : List Nat :=
  [66, 77, 0, 0, 0, 0, 0, 0, 0, 0, 54, 0, 0, 0, 40, 0, 0, 0,
   1, 0, 0, 0, 1, 0, 0, 0, 1, 0, 24, 0, 0, 0, 0, 0,
   0, 0, 0, 0, 0, 0, 0, 0, 0, 0, 0, 0, 0, 0, 0, 0, 0, 0, 0, 0,
   10, 20, 30, 0]

/-- Witness for C6: on a concrete valid 1×1 24-bpp BMP, the decode output and
the dimension query agree as the theorem states. -/
theorem c6_dimension_consistency_witness :
    8 ≤ ([1, 0, 0, 0, 1, 0, 0, 0, 30, 20, 10, 255] : List Nat).length
      ∧ get_bmp_dimensions c6buf
        = Except.ok [u32at [1, 0, 0, 0, 1, 0, 0, 0, 30, 20, 10, 255] 0,
            u32at [1, 0, 0, 0, 1, 0, 0, 0, 30, 20, 10, 255] 4] :=
  c6_dimension_consistency c6buf [1, 0, 0, 0, 1, 0, 0, 0, 30, 20, 10, 255]
    (by decide) (by rfl)

end Codec

namespace Codec

theorem getElem_eq_some_byteAt {data : List Nat} {i : Nat} (h : i < data.length) :
    data[i]? = some (byteAt data i) := by
  simp [byteAt, List.getElem?_eq_getElem h, List.getD_eq_getElem?_getD]

/-- C9: resizing an image to its own dimensions with the nearest kernel
reproduces the source buffer exactly (the ratio is 1, so every source index
is the destination index). -/
theorem c9_nearest_identity :
    ∀ (sW sH : Nat) (data : List Nat), 1 ≤ sW → 1 ≤ sH → data.length = sW * sH * 4 →
      resize_nearest data sW sH sW sH = some data := by
  intro sW sH data hw hh hlen
  have hw0 : ((sW : ℚ)) ≠ 0 := Nat.cast_ne_zero.mpr (by omega)
  have hh0 : ((sH : ℚ)) ≠ 0 := Nat.cast_ne_zero.mpr (by omega)
  simp only [resize_nearest, div_self hw0, div_self hh0, mul_one, Int.floor_natCast,
    Int.toNat_natCast]
  rw [joinO_some (fun y => ((List.range sW).map (fun x =>
      [byteAt data ((y * sW + x) * 4), byteAt data ((y * sW + x) * 4 + 1),
        byteAt data ((y * sW + x) * 4 + 2), byteAt data ((y * sW + x) * 4 + 3)])).flatten)
    (by
      intro y hy
      refine joinO_some (fun x =>
        [byteAt data ((y * sW + x) * 4), byteAt data ((y * sW + x) * 4 + 1),
          byteAt data ((y * sW + x) * 4 + 2), byteAt data ((y * sW + x) * 4 + 3)]) ?_
      intro x hx
      have h3 : y * sW + sW ≤ sH * sW := by
        have := Nat.mul_le_mul_right sW hy
        rwa [Nat.succ_mul] at this
      have h4 : sH * sW = sW * sH := Nat.mul_comm sH sW
      rw [getElem_eq_some_byteAt (by omega), Option.some_bind,
        getElem_eq_some_byteAt (by omega), Option.some_bind,
        getElem_eq_some_byteAt (by omega), Option.some_bind,
        getElem_eq_some_byteAt (by omega), Option.map_some'])]
  refine congrArg some ?_
  calc ((List.range sH).map (fun y => ((List.range sW).map (fun x =>
        [byteAt data ((y * sW + x) * 4), byteAt data ((y * sW + x) * 4 + 1),
          byteAt data ((y * sW + x) * 4 + 2),
          byteAt data ((y * sW + x) * 4 + 3)])).flatten)).flatten
      = ((List.range (sH * sW)).map (fun k =>
          [byteAt data (k * 4), byteAt data (k * 4 + 1), byteAt data (k * 4 + 2),
            byteAt data (k * 4 + 3)])).flatten :=
        @flatten_nested (fun k => [byteAt data (k * 4), byteAt data (k * 4 + 1),
          byteAt data (k * 4 + 2), byteAt data (k * 4 + 3)]) sH sW
    _ = ((List.range (sH * sW)).map (fun k =>
          [byteAt data (4 * k), byteAt data (4 * k + 1), byteAt data (4 * k + 2),
            byteAt data (4 * k + 3)])).flatten := by
        refine congrArg List.flatten (List.map_congr_left ?_)
        intro k _
        rw [Nat.mul_comm k 4]
    _ = data := flatten_chunks4 (sH * sW) data (by rw [hlen]; ring)

/-- Witness for C9: the identity resize of a 1×1 image. -/
theorem c9_nearest_identity_witness :
    resize_nearest [9, 8, 7, 6] 1 1 1 1 = some [9, 8, 7, 6] :=
  c9_nearest_identity 1 1 [9, 8, 7, 6] (by decide) (by decide) (by decide)

end Codec

namespace Codec

/-! ### Rational helpers for the resampling kernels -/

theorem readQ_ok {data : List Nat} {i : Nat} (h : i < data.length) :
    readQ data i = some ((byteAt data i : Nat) : ℚ) := by
  rw [readQ, getElem_eq_some_byteAt h]
  rfl

theorem fract_nonneg_q (q : ℚ) : 0 ≤ q - ((⌊q⌋ : ℤ) : ℚ) := sub_nonneg.mpr (Int.floor_le q)

theorem fract_lt_one_q (q : ℚ) : q - ((⌊q⌋ : ℤ) : ℚ) < 1 := by
  have := Int.lt_floor_add_one q
  linarith

theorem floor_half_q : ⌊(1 : ℚ) / 2⌋ = 0 := by norm_num [Int.floor_eq_iff]

theorem roundHAZ_natCast (n : Nat) : roundHAZ (n : ℚ) = (n : Int) := by
  rw [roundHAZ, if_neg (not_lt.mpr (by positivity))]
  have h : ((n : ℚ)) + 1 / 2 = ((n : ℤ) : ℚ) + 1 / 2 := by push_cast; ring
  rw [h, Int.floor_int_add, floor_half_q, add_zero]

theorem u8cast_natCast {n : Nat} (hn : n ≤ 255) : u8cast (n : Int) = n := by
  unfold u8cast
  omega

theorem u8cast_le (z : Int) : u8cast z ≤ 255 := by
  unfold u8cast
  omega

theorem byte_roundtrip {n : Nat} (hn : n ≤ 255) : u8cast (roundHAZ (n : ℚ)) = n := by
  rw [roundHAZ_natCast]
  exact u8cast_natCast hn

theorem floor_toNat_lt {q : ℚ} {s : Nat} (hs : 1 ≤ s) (h : q < (s : ℚ)) :
    (⌊q⌋).toNat < s := by
  have h2 : ⌊q⌋ < (s : ℤ) := Int.floor_lt.mpr (by exact_mod_cast h)
  omega

theorem ratio_lt {x s d : Nat} (hd : 1 ≤ d) (hx : x < d) (hs : 1 ≤ s) :
    (x : ℚ) * ((s : ℚ) / (d : ℚ)) < (s : ℚ) := by
  have hd0 : (0 : ℚ) < (d : ℚ) := by exact_mod_cast Nat.lt_of_lt_of_le Nat.zero_lt_one hd
  have hs0 : (0 : ℚ) < (s : ℚ) := by exact_mod_cast Nat.lt_of_lt_of_le Nat.zero_lt_one hs
  have hxq : (x : ℚ) < (d : ℚ) := by exact_mod_cast hx
  rw [← mul_div_assoc, div_lt_iff hd0]
  nlinarith

theorem ratio1_lt {x s d : Nat} (hd : 1 ≤ d) (hx : x < d) (hs : 1 ≤ s) :
    (x : ℚ) * (((s : ℚ) - 1) / (d : ℚ)) < (s : ℚ) := by
  have hd0 : (0 : ℚ) < (d : ℚ) := by exact_mod_cast Nat.lt_of_lt_of_le Nat.zero_lt_one hd
  have hs1 : (1 : ℚ) ≤ (s : ℚ) := by exact_mod_cast hs
  have hxq : (x : ℚ) ≤ (d : ℚ) - 1 := by
    have h2 : ((x : ℚ)) + 1 ≤ (d : ℚ) := by exact_mod_cast hx
    linarith
  rw [← mul_div_assoc, div_lt_iff hd0]
  nlinarith [mul_le_mul_of_nonneg_right hxq (by linarith : (0 : ℚ) ≤ (s : ℚ) - 1)]

theorem clampI_toNat_lt {z : Int} {s : Nat} (hs : 1 ≤ s) :
    (clampI z 0 ((s : Int) - 1)).toNat < s := by
  unfold clampI
  omega

/-! ### Reads from a uniform image -/

theorem uniformImage_get {w h cr cg cb ca : Nat} {py px c : Nat}
    (hpy : py < h) (hpx : px < w) (hc : c < 4) :
    (uniformImage w h cr cg cb ca)[(py * w + px) * 4 + c]?
      = some (byteAt [cr, cg, cb, ca] c) := by
  have hidx : py * w + px < w * h := by
    have h3 : py * w + w ≤ h * w := by
      have := Nat.mul_le_mul_right w hpy
      rwa [Nat.succ_mul] at this
    have h4 : h * w = w * h := Nat.mul_comm h w
    omega
  rw [uniformImage, @blockGet 4 (w * h) (fun _ => [cr, cg, cb, ca]) (py * w + px) c
    (fun j _ => rfl) hidx hc]
  interval_cases c <;> rfl

theorem uniformImage_readQ {w h cr cg cb ca : Nat} {py px c : Nat}
    (hpy : py < h) (hpx : px < w) (hc : c < 4) :
    readQ (uniformImage w h cr cg cb ca) ((py * w + px) * 4 + c)
      = some ((byteAt [cr, cg, cb, ca] c : Nat) : ℚ) := by
  rw [readQ, uniformImage_get hpy hpx hc]
  rfl

/-! ### Separable window sums -/

theorem gridRows_sum (F G : Int → ℚ) (inner : List Int) :
    ∀ (outer : List Int),
      (((outer.map (fun j => inner.map (fun i => (j, i)))).flatten).map
          (fun ji => F ji.2 * G ji.1)).sum
        = ((inner.map F).sum) * ((outer.map G).sum)
  | [] => by simp
  | j :: t => by
    simp only [List.map_cons, List.flatten_cons, List.map_append, List.sum_append,
      List.map_map, List.sum_cons]
    rw [gridRows_sum F G inner t]
    have h1 : ((fun ji => F ji.2 * G ji.1) ∘ fun i => (j, i)) = fun i => F i * G j := rfl
    rw [h1, List.sum_map_mul_right]
    ring

theorem gridPairs_sum (F G : Int → ℚ) (offs : List Int) :
    ((gridPairs offs).map (fun ji => F ji.2 * G ji.1)).sum
      = ((offs.map F).sum) * ((offs.map G).sum) := by
  rw [gridPairs]
  exact gridRows_sum F G offs offs

/-- The Keys cubic kernel is a partition of unity: the four weights of a row
sum to 1 for every fractional offset in `[0, 1)`. -/
theorem cubic_rowsum {f : ℚ} (h0 : 0 ≤ f) (h1 : f < 1) :
    cubic_weight (-1 - f) + cubic_weight (0 - f) + cubic_weight (1 - f)
      + cubic_weight (2 - f) = 1 := by
  rcases eq_or_lt_of_le h0 with he | hpos
  · rw [← he]
    norm_num [cubic_weight]
  · have ha : |(-1 - f)| = 1 + f := by
      rw [abs_of_nonpos (by linarith)]
      ring
    have hb : |(0 - f)| = f := by
      rw [abs_of_nonpos (by linarith)]
      ring
    have hc : |(1 - f)| = 1 - f := abs_of_nonneg (by linarith)
    have hd : |(2 - f)| = 2 - f := abs_of_nonneg (by linarith)
    simp only [cubic_weight, ha, hb, hc, hd]
    rw [if_neg (show ¬(1 + f < 1) by linarith), if_pos (show 1 + f < 2 by linarith),
      if_pos (show f < 1 by linarith), if_pos (show 1 - f < 1 by linarith),
      if_neg (show ¬(2 - f < 1) by linarith), if_pos (show 2 - f < 2 by linarith)]
    ring


/-! ### Specialized uniform-image reads -/

theorem uniformImage_get0 {w h cr cg cb ca : Nat} {py px : Nat}
    (hpy : py < h) (hpx : px < w) :
    (uniformImage w h cr cg cb ca)[(py * w + px) * 4]? = some cr := by
  simpa [byteAt] using uniformImage_get hpy hpx (show 0 < 4 by omega)

theorem uniformImage_get1 {w h cr cg cb ca : Nat} {py px : Nat}
    (hpy : py < h) (hpx : px < w) :
    (uniformImage w h cr cg cb ca)[(py * w + px) * 4 + 1]? = some cg := by
  simpa [byteAt] using uniformImage_get hpy hpx (show 1 < 4 by omega)

theorem uniformImage_get2 {w h cr cg cb ca : Nat} {py px : Nat}
    (hpy : py < h) (hpx : px < w) :
    (uniformImage w h cr cg cb ca)[(py * w + px) * 4 + 2]? = some cb := by
  simpa [byteAt] using uniformImage_get hpy hpx (show 2 < 4 by omega)

theorem uniformImage_get3 {w h cr cg cb ca : Nat} {py px : Nat}
    (hpy : py < h) (hpx : px < w) :
    (uniformImage w h cr cg cb ca)[(py * w + px) * 4 + 3]? = some ca := by
  simpa [byteAt] using uniformImage_get hpy hpx (show 3 < 4 by omega)

theorem uniform_flatten (dW dH cr cg cb ca : Nat) :
    ((List.range dH).map (fun _ => ((List.range dW).map (fun _ =>
        [cr, cg, cb, ca])).flatten)).flatten = uniformImage dW dH cr cg cb ca := by
  calc ((List.range dH).map (fun _ => ((List.range dW).map (fun _ =>
        [cr, cg, cb, ca])).flatten)).flatten
      = ((List.range (dH * dW)).map (fun _ => [cr, cg, cb, ca])).flatten :=
        @flatten_nested (fun _ => [cr, cg, cb, ca]) dH dW
    _ = uniformImage dW dH cr cg cb ca := by rw [uniformImage, Nat.mul_comm dH dW]

theorem chan_le {cr cg cb ca c : Nat} (hcr : cr ≤ 255) (hcg : cg ≤ 255)
    (hcb : cb ≤ 255) (hca : ca ≤ 255) (hc : c < 4) :
    byteAt [cr, cg, cb, ca] c ≤ 255 := by
  interval_cases c
  · exact hcr
  · exact hcg
  · exact hcb
  · exact hca

/-! ### Boundedness of the bicubic and Lanczos kernels -/

theorem resize_bicubic_bounded :
    ∀ (data : List Nat) (sW sH dW dH : Nat) (out : List Nat),
      resize_bicubic data sW sH dW dH = some out → ∀ v ∈ out, v ≤ 255 := by
  intro data sW sH dW dH out hout
  simp only [resize_bicubic, joinO] at hout
  refine joinOAux_mem ?_ dH 0 out hout
  intro y l hy
  refine joinOAux_mem ?_ dW 0 l hy
  intro x l2 hx2
  refine mapM_some_mem ?_ (List.range 4) l2 hx2
  intro c bb hcb
  obtain ⟨vals, _, hbb⟩ := Option.map_eq_some'.mp hcb
  rw [← hbb]
  exact u8cast_le _

theorem resize_lanczos_bounded :
    ∀ (W : ℚ → ℚ) (data : List Nat) (sW sH dW dH : Nat) (out : List Nat),
      resize_lanczos W data sW sH dW dH = some out → ∀ v ∈ out, v ≤ 255 := by
  intro W data sW sH dW dH out hout
  simp only [resize_lanczos, joinO] at hout
  refine joinOAux_mem ?_ dH 0 out hout
  intro y l hy
  refine joinOAux_mem ?_ dW 0 l hy
  intro x l2 hx2
  refine mapM_some_mem ?_ (List.range 4) l2 hx2
  intro c bb hcb
  obtain ⟨vals, _, hbb⟩ := Option.map_eq_some'.mp hcb
  rw [← hbb]
  split_ifs
  · exact u8cast_le _
  · omega

/-! ### Constant-signal preservation, one kernel at a time -/

theorem resize_nearest_uniform :
    ∀ (w h dW dH cr cg cb ca : Nat), 1 ≤ w → 1 ≤ h → 1 ≤ dW → 1 ≤ dH →
      resize_nearest (uniformImage w h cr cg cb ca) w h dW dH
        = some (uniformImage dW dH cr cg cb ca) := by
  intro w h dW dH cr cg cb ca hw hh hdW hdH
  simp only [resize_nearest]
  refine (joinO_some (fun _ => ((List.range dW).map (fun _ =>
      [cr, cg, cb, ca])).flatten) ?_).trans
    (congrArg some (uniform_flatten dW dH cr cg cb ca))
  intro y hy
  refine joinO_some (fun _ => [cr, cg, cb, ca]) ?_
  intro x hx
  have hsx : (⌊(x : ℚ) * ((w : ℚ) / (dW : ℚ))⌋).toNat < w :=
    floor_toNat_lt hw (ratio_lt hdW hx hw)
  have hsy : (⌊(y : ℚ) * ((h : ℚ) / (dH : ℚ))⌋).toNat < h :=
    floor_toNat_lt hh (ratio_lt hdH hy hh)
  rw [uniformImage_get0 hsy hsx, Option.some_bind, uniformImage_get1 hsy hsx,
    Option.some_bind, uniformImage_get2 hsy hsx, Option.some_bind,
    uniformImage_get3 hsy hsx, Option.map_some']

theorem resize_bilinear_uniform :
    ∀ (w h dW dH cr cg cb ca : Nat), 1 ≤ w → 1 ≤ h → 1 ≤ dW → 1 ≤ dH →
      cr ≤ 255 → cg ≤ 255 → cb ≤ 255 → ca ≤ 255 →
      resize_bilinear (uniformImage w h cr cg cb ca) w h dW dH
        = some (uniformImage dW dH cr cg cb ca) := by
  intro w h dW dH cr cg cb ca hw hh hdW hdH hcr hcg hcb hca
  simp only [resize_bilinear]
  refine (joinO_some (fun _ => ((List.range dW).map (fun _ =>
      [cr, cg, cb, ca])).flatten) ?_).trans
    (congrArg some (uniform_flatten dW dH cr cg cb ca))
  intro y hy
  refine joinO_some (fun _ => [cr, cg, cb, ca]) ?_
  intro x hx
  have hx0 : (⌊(x : ℚ) * (((w : ℚ) - 1) / (dW : ℚ))⌋).toNat < w :=
    floor_toNat_lt hw (ratio1_lt hdW hx hw)
  have hy0 : (⌊(y : ℚ) * (((h : ℚ) - 1) / (dH : ℚ))⌋).toNat < h :=
    floor_toNat_lt hh (ratio1_lt hdH hy hh)
  have hx1 : min ((⌊(x : ℚ) * (((w : ℚ) - 1) / (dW : ℚ))⌋).toNat + 1) (w - 1) < w := by
    omega
  have hy1 : min ((⌊(y : ℚ) * (((h : ℚ) - 1) / (dH : ℚ))⌋).toNat + 1) (h - 1) < h := by
    omega
  refine (mapM_some_of_forall (fun c => byteAt [cr, cg, cb, ca] c) ?_).trans rfl
  intro c hc
  have hc4 : c < 4 := List.mem_range.mp hc
  rw [uniformImage_readQ hy0 hx0 hc4, uniformImage_readQ hy0 hx1 hc4,
    uniformImage_readQ hy1 hx0 hc4, uniformImage_readQ hy1 hx1 hc4]
  simp only [Option.bind_eq_bind, Option.some_bind]
  have hval : ((byteAt [cr, cg, cb, ca] c : Nat) : ℚ)
        * (1 - ((x : ℚ) * (((w : ℚ) - 1) / (dW : ℚ))
            - ((⌊(x : ℚ) * (((w : ℚ) - 1) / (dW : ℚ))⌋).toNat : ℚ)))
        * (1 - ((y : ℚ) * (((h : ℚ) - 1) / (dH : ℚ))
            - ((⌊(y : ℚ) * (((h : ℚ) - 1) / (dH : ℚ))⌋).toNat : ℚ)))
      + ((byteAt [cr, cg, cb, ca] c : Nat) : ℚ)
        * ((x : ℚ) * (((w : ℚ) - 1) / (dW : ℚ))
            - ((⌊(x : ℚ) * (((w : ℚ) - 1) / (dW : ℚ))⌋).toNat : ℚ))
        * (1 - ((y : ℚ) * (((h : ℚ) - 1) / (dH : ℚ))
            - ((⌊(y : ℚ) * (((h : ℚ) - 1) / (dH : ℚ))⌋).toNat : ℚ)))
      + ((byteAt [cr, cg, cb, ca] c : Nat) : ℚ)
        * (1 - ((x : ℚ) * (((w : ℚ) - 1) / (dW : ℚ))
            - ((⌊(x : ℚ) * (((w : ℚ) - 1) / (dW : ℚ))⌋).toNat : ℚ)))
        * ((y : ℚ) * (((h : ℚ) - 1) / (dH : ℚ))
            - ((⌊(y : ℚ) * (((h : ℚ) - 1) / (dH : ℚ))⌋).toNat : ℚ))
      + ((byteAt [cr, cg, cb, ca] c : Nat) : ℚ)
        * ((x : ℚ) * (((w : ℚ) - 1) / (dW : ℚ))
            - ((⌊(x : ℚ) * (((w : ℚ) - 1) / (dW : ℚ))⌋).toNat : ℚ))
        * ((y : ℚ) * (((h : ℚ) - 1) / (dH : ℚ))
            - ((⌊(y : ℚ) * (((h : ℚ) - 1) / (dH : ℚ))⌋).toNat : ℚ))
      = ((byteAt [cr, cg, cb, ca] c : Nat) : ℚ) := by ring
  rw [hval, byte_roundtrip (chan_le hcr hcg hcb hca hc4)]

theorem resize_bicubic_uniform :
    ∀ (w h dW dH cr cg cb ca : Nat), 1 ≤ w → 1 ≤ h → 1 ≤ dW → 1 ≤ dH →
      cr ≤ 255 → cg ≤ 255 → cb ≤ 255 → ca ≤ 255 →
      resize_bicubic (uniformImage w h cr cg cb ca) w h dW dH
        = some (uniformImage dW dH cr cg cb ca) := by
  intro w h dW dH cr cg cb ca hw hh hdW hdH hcr hcg hcb hca
  simp only [resize_bicubic]
  refine (joinO_some (fun _ => ((List.range dW).map (fun _ =>
      [cr, cg, cb, ca])).flatten) ?_).trans
    (congrArg some (uniform_flatten dW dH cr cg cb ca))
  intro y hy
  refine joinO_some (fun _ => [cr, cg, cb, ca]) ?_
  intro x hx
  refine (mapM_some_of_forall (fun c => byteAt [cr, cg, cb, ca] c) ?_).trans rfl
  intro c hc
  have hc4 : c < 4 := List.mem_range.mp hc
  rw [mapM_some_of_forall (fun ji => ((byteAt [cr, cg, cb, ca] c : Nat) : ℚ)
      * (cubic_weight ((ji.2 : ℚ) - ((x : ℚ) * ((w : ℚ) / (dW : ℚ))
          - ((⌊(x : ℚ) * ((w : ℚ) / (dW : ℚ))⌋ : ℤ) : ℚ)))
        * cubic_weight ((ji.1 : ℚ) - ((y : ℚ) * ((h : ℚ) / (dH : ℚ))
          - ((⌊(y : ℚ) * ((h : ℚ) / (dH : ℚ))⌋ : ℤ) : ℚ)))))
    (by
      intro ji _
      rw [uniformImage_readQ (clampI_toNat_lt hh) (clampI_toNat_lt hw) hc4,
        Option.map_some']), Option.map_some']
  have hfx0 : 0 ≤ (x : ℚ) * ((w : ℚ) / (dW : ℚ))
      - ((⌊(x : ℚ) * ((w : ℚ) / (dW : ℚ))⌋ : ℤ) : ℚ) :=
    fract_nonneg_q ((x : ℚ) * ((w : ℚ) / (dW : ℚ)))
  have hfx1 : (x : ℚ) * ((w : ℚ) / (dW : ℚ))
      - ((⌊(x : ℚ) * ((w : ℚ) / (dW : ℚ))⌋ : ℤ) : ℚ) < 1 :=
    fract_lt_one_q ((x : ℚ) * ((w : ℚ) / (dW : ℚ)))
  have hfy0 : 0 ≤ (y : ℚ) * ((h : ℚ) / (dH : ℚ))
      - ((⌊(y : ℚ) * ((h : ℚ) / (dH : ℚ))⌋ : ℤ) : ℚ) :=
    fract_nonneg_q ((y : ℚ) * ((h : ℚ) / (dH : ℚ)))
  have hfy1 : (y : ℚ) * ((h : ℚ) / (dH : ℚ))
      - ((⌊(y : ℚ) * ((h : ℚ) / (dH : ℚ))⌋ : ℤ) : ℚ) < 1 :=
    fract_lt_one_q ((y : ℚ) * ((h : ℚ) / (dH : ℚ)))
  have hrowx : (([-1, 0, 1, 2] : List Int).map (fun (i : Int) => cubic_weight ((i : ℚ)
      - ((x : ℚ) * ((w : ℚ) / (dW : ℚ))
        - ((⌊(x : ℚ) * ((w : ℚ) / (dW : ℚ))⌋ : ℤ) : ℚ))))).sum = 1 := by
    simp only [List.map_cons, List.map_nil, List.sum_cons, List.sum_nil]
    push_cast
    linarith [cubic_rowsum hfx0 hfx1]
  have hrowy : (([-1, 0, 1, 2] : List Int).map (fun (j : Int) => cubic_weight ((j : ℚ)
      - ((y : ℚ) * ((h : ℚ) / (dH : ℚ))
        - ((⌊(y : ℚ) * ((h : ℚ) / (dH : ℚ))⌋ : ℤ) : ℚ))))).sum = 1 := by
    simp only [List.map_cons, List.map_nil, List.sum_cons, List.sum_nil]
    push_cast
    linarith [cubic_rowsum hfy0 hfy1]
  rw [List.sum_map_mul_left (gridPairs [-1, 0, 1, 2])
      (fun ji => cubic_weight ((ji.2 : ℚ) - ((x : ℚ) * ((w : ℚ) / (dW : ℚ))
          - ((⌊(x : ℚ) * ((w : ℚ) / (dW : ℚ))⌋ : ℤ) : ℚ)))
        * cubic_weight ((ji.1 : ℚ) - ((y : ℚ) * ((h : ℚ) / (dH : ℚ))
          - ((⌊(y : ℚ) * ((h : ℚ) / (dH : ℚ))⌋ : ℤ) : ℚ))))
      ((byteAt [cr, cg, cb, ca] c : Nat) : ℚ),
    gridPairs_sum (fun i => cubic_weight ((i : ℚ) - ((x : ℚ) * ((w : ℚ) / (dW : ℚ))
        - ((⌊(x : ℚ) * ((w : ℚ) / (dW : ℚ))⌋ : ℤ) : ℚ))))
      (fun j => cubic_weight ((j : ℚ) - ((y : ℚ) * ((h : ℚ) / (dH : ℚ))
        - ((⌊(y : ℚ) * ((h : ℚ) / (dH : ℚ))⌋ : ℤ) : ℚ)))) [-1, 0, 1, 2],
    hrowx, hrowy, mul_one, mul_one, byte_roundtrip (chan_le hcr hcg hcb hca hc4)]

theorem resize_lanczos_uniform :
    ∀ (W : ℚ → ℚ),
      (∀ u v : ℚ, 0 ≤ u → u < 1 → 0 ≤ v → v < 1 → 0 < lanczosWindowSum W u v) →
      ∀ (w h dW dH cr cg cb ca : Nat), 1 ≤ w → 1 ≤ h → 1 ≤ dW → 1 ≤ dH →
      cr ≤ 255 → cg ≤ 255 → cb ≤ 255 → ca ≤ 255 →
      resize_lanczos W (uniformImage w h cr cg cb ca) w h dW dH
        = some (uniformImage dW dH cr cg cb ca) := by
  intro W hW w h dW dH cr cg cb ca hw hh hdW hdH hcr hcg hcb hca
  simp only [resize_lanczos]
  refine (joinO_some (fun _ => ((List.range dW).map (fun _ =>
      [cr, cg, cb, ca])).flatten) ?_).trans
    (congrArg some (uniform_flatten dW dH cr cg cb ca))
  intro y hy
  refine joinO_some (fun _ => [cr, cg, cb, ca]) ?_
  intro x hx
  refine (mapM_some_of_forall (fun c => byteAt [cr, cg, cb, ca] c) ?_).trans rfl
  intro c hc
  have hc4 : c < 4 := List.mem_range.mp hc
  rw [mapM_some_of_forall (fun ji => ((byteAt [cr, cg, cb, ca] c : Nat) : ℚ)
      * (W ((ji.2 : ℚ) - ((x : ℚ) * ((w : ℚ) / (dW : ℚ))
          - ((⌊(x : ℚ) * ((w : ℚ) / (dW : ℚ))⌋ : ℤ) : ℚ)))
        * W ((ji.1 : ℚ) - ((y : ℚ) * ((h : ℚ) / (dH : ℚ))
          - ((⌊(y : ℚ) * ((h : ℚ) / (dH : ℚ))⌋ : ℤ) : ℚ)))))
    (by
      intro ji _
      rw [uniformImage_readQ (clampI_toNat_lt hh) (clampI_toNat_lt hw) hc4,
        Option.map_some']), Option.map_some']
  have hpos : 0 < lanczosWindowSum W
      ((x : ℚ) * ((w : ℚ) / (dW : ℚ))
        - ((⌊(x : ℚ) * ((w : ℚ) / (dW : ℚ))⌋ : ℤ) : ℚ))
      ((y : ℚ) * ((h : ℚ) / (dH : ℚ))
        - ((⌊(y : ℚ) * ((h : ℚ) / (dH : ℚ))⌋ : ℤ) : ℚ)) :=
    hW ((x : ℚ) * ((w : ℚ) / (dW : ℚ))
        - ((⌊(x : ℚ) * ((w : ℚ) / (dW : ℚ))⌋ : ℤ) : ℚ))
      ((y : ℚ) * ((h : ℚ) / (dH : ℚ))
        - ((⌊(y : ℚ) * ((h : ℚ) / (dH : ℚ))⌋ : ℤ) : ℚ))
      (fract_nonneg_q ((x : ℚ) * ((w : ℚ) / (dW : ℚ))))
      (fract_lt_one_q ((x : ℚ) * ((w : ℚ) / (dW : ℚ))))
      (fract_nonneg_q ((y : ℚ) * ((h : ℚ) / (dH : ℚ))))
      (fract_lt_one_q ((y : ℚ) * ((h : ℚ) / (dH : ℚ))))
  rw [if_pos hpos,
    List.sum_map_mul_left (gridPairs [-2, -1, 0, 1, 2, 3])
      (fun ji => W ((ji.2 : ℚ) - ((x : ℚ) * ((w : ℚ) / (dW : ℚ))
          - ((⌊(x : ℚ) * ((w : ℚ) / (dW : ℚ))⌋ : ℤ) : ℚ)))
        * W ((ji.1 : ℚ) - ((y : ℚ) * ((h : ℚ) / (dH : ℚ))
          - ((⌊(y : ℚ) * ((h : ℚ) / (dH : ℚ))⌋ : ℤ) : ℚ))))
      ((byteAt [cr, cg, cb, ca] c : Nat) : ℚ)]
  rw [show ((gridPairs [-2, -1, 0, 1, 2, 3]).map
      (fun ji => W ((ji.2 : ℚ) - ((x : ℚ) * ((w : ℚ) / (dW : ℚ))
          - ((⌊(x : ℚ) * ((w : ℚ) / (dW : ℚ))⌋ : ℤ) : ℚ)))
        * W ((ji.1 : ℚ) - ((y : ℚ) * ((h : ℚ) / (dH : ℚ))
          - ((⌊(y : ℚ) * ((h : ℚ) / (dH : ℚ))⌋ : ℤ) : ℚ))))).sum
      = lanczosWindowSum W
          ((x : ℚ) * ((w : ℚ) / (dW : ℚ))
            - ((⌊(x : ℚ) * ((w : ℚ) / (dW : ℚ))⌋ : ℤ) : ℚ))
          ((y : ℚ) * ((h : ℚ) / (dH : ℚ))
            - ((⌊(y : ℚ) * ((h : ℚ) / (dH : ℚ))⌋ : ℤ) : ℚ)) from rfl,
    mul_div_assoc, div_self (ne_of_gt hpos), mul_one,
    byte_roundtrip (chan_le hcr hcg hcb hca hc4)]

/-- C8: every byte of a bicubic or Lanczos resize output lies in `[0, 255]`
(the code clamps before the `u8` cast), and a uniform-color source image is
mapped to the same uniform color at every destination pixel by all four
kernels — nearest, bilinear, bicubic, and Lanczos (the latter stated for any
separable weight function whose window sums are positive, as the code's
windowed sinc is). -/
theorem c8_bounded_and_uniform :
    (∀ (data : List Nat) (sW sH dW dH : Nat) (out : List Nat),
        resize_bicubic data sW sH dW dH = some out → ∀ v ∈ out, v ≤ 255)
    ∧ (∀ (W : ℚ → ℚ) (data : List Nat) (sW sH dW dH : Nat) (out : List Nat),
        resize_lanczos W data sW sH dW dH = some out → ∀ v ∈ out, v ≤ 255)
    ∧ (∀ (w h dW dH cr cg cb ca : Nat), 1 ≤ w → 1 ≤ h → 1 ≤ dW → 1 ≤ dH →
        resize_nearest (uniformImage w h cr cg cb ca) w h dW dH
          = some (uniformImage dW dH cr cg cb ca))
    ∧ (∀ (w h dW dH cr cg cb ca : Nat), 1 ≤ w → 1 ≤ h → 1 ≤ dW → 1 ≤ dH →
        cr ≤ 255 → cg ≤ 255 → cb ≤ 255 → ca ≤ 255 →
        resize_bilinear (uniformImage w h cr cg cb ca) w h dW dH
          = some (uniformImage dW dH cr cg cb ca))
    ∧ (∀ (w h dW dH cr cg cb ca : Nat), 1 ≤ w → 1 ≤ h → 1 ≤ dW → 1 ≤ dH →
        cr ≤ 255 → cg ≤ 255 → cb ≤ 255 → ca ≤ 255 →
        resize_bicubic (uniformImage w h cr cg cb ca) w h dW dH
          = some (uniformImage dW dH cr cg cb ca))
    ∧ (∀ (W : ℚ → ℚ),
        (∀ u v : ℚ, 0 ≤ u → u < 1 → 0 ≤ v → v < 1 → 0 < lanczosWindowSum W u v) →
        ∀ (w h dW dH cr cg cb ca : Nat), 1 ≤ w → 1 ≤ h → 1 ≤ dW → 1 ≤ dH →
        cr ≤ 255 → cg ≤ 255 → cb ≤ 255 → ca ≤ 255 →
        resize_lanczos W (uniformImage w h cr cg cb ca) w h dW dH
          = some (uniformImage dW dH cr cg cb ca)) :=
  ⟨resize_bicubic_bounded, resize_lanczos_bounded, resize_nearest_uniform,
    resize_bilinear_uniform, resize_bicubic_uniform, resize_lanczos_uniform⟩

/-- Witness for C8: nearest-kernel preservation of a concrete uniform 1×1
image resized to 2×3. -/
theorem c8_bounded_and_uniform_witness :
    resize_nearest (uniformImage 1 1 7 8 9 10) 1 1 2 3
      = some (uniformImage 2 3 7 8 9 10) :=
  c8_bounded_and_uniform.2.2.1 1 1 2 3 7 8 9 10
    (by decide) (by decide) (by decide) (by decide)

end Codec

namespace Codec

/-- One output channel of the bilinear kernel, written with the pure byte
view `byteAt` in place of the checked reads; used only to state lemmas. -/
def bilinearChan (data : List Nat) (sW sH dW dH y x c : Nat) : Nat :=
  let sx := (x : ℚ) * (((sW : ℚ) - 1) / (dW : ℚ))
  let sy := (y : ℚ) * (((sH : ℚ) - 1) / (dH : ℚ))
  let x0 := (⌊sx⌋).toNat
  let y0 := (⌊sy⌋).toNat
  let x1 := min (x0 + 1) (sW - 1)
  let y1 := min (y0 + 1) (sH - 1)
  let fx := sx - (x0 : ℚ)
  let fy := sy - (y0 : ℚ)
  u8cast (roundHAZ ((byteAt data ((y0 * sW + x0) * 4 + c) : ℚ) * (1 - fx) * (1 - fy)
    + (byteAt data ((y0 * sW + x1) * 4 + c) : ℚ) * fx * (1 - fy)
    + (byteAt data ((y1 * sW + x0) * 4 + c) : ℚ) * (1 - fx) * fy
    + (byteAt data ((y1 * sW + x1) * 4 + c) : ℚ) * fx * fy))

/-- One output pixel of the bilinear kernel; used only to state lemmas. -/
def bilinearPixel (data : List Nat) (sW sH dW dH y x : Nat) : List Nat :=
  (List.range 4).map (bilinearChan data sW sH dW dH y x)

/-- The bilinear resize always succeeds on a well-sized buffer, producing the
row-major scan of `bilinearPixel`. -/
theorem resize_bilinear_ok {sW sH dW dH : Nat} {data : List Nat}
    (hw : 1 ≤ sW) (hh : 1 ≤ sH) (hdW : 1 ≤ dW) (hdH : 1 ≤ dH)
    (hlen : data.length = sW * sH * 4) :
    resize_bilinear data sW sH dW dH
      = some (((List.range dH).map (fun y =>
          ((List.range dW).map (fun x =>
            bilinearPixel data sW sH dW dH y x)).flatten)).flatten) := by
  simp only [resize_bilinear]
  refine joinO_some (fun y => ((List.range dW).map (fun x =>
      bilinearPixel data sW sH dW dH y x)).flatten) ?_
  intro y hy
  refine joinO_some (fun x => bilinearPixel data sW sH dW dH y x) ?_
  intro x hx
  have hx0 : (⌊(x : ℚ) * (((sW : ℚ) - 1) / (dW : ℚ))⌋).toNat < sW :=
    floor_toNat_lt hw (ratio1_lt hdW hx hw)
  have hy0 : (⌊(y : ℚ) * (((sH : ℚ) - 1) / (dH : ℚ))⌋).toNat < sH :=
    floor_toNat_lt hh (ratio1_lt hdH hy hh)
  have hx1 : min ((⌊(x : ℚ) * (((sW : ℚ) - 1) / (dW : ℚ))⌋).toNat + 1) (sW - 1) < sW := by
    omega
  have hy1 : min ((⌊(y : ℚ) * (((sH : ℚ) - 1) / (dH : ℚ))⌋).toNat + 1) (sH - 1) < sH := by
    omega
  have hyw0 : (⌊(y : ℚ) * (((sH : ℚ) - 1) / (dH : ℚ))⌋).toNat * sW + sW ≤ sH * sW := by
    have := Nat.mul_le_mul_right sW hy0
    rwa [Nat.succ_mul] at this
  have hyw1 : (min ((⌊(y : ℚ) * (((sH : ℚ) - 1) / (dH : ℚ))⌋).toNat + 1) (sH - 1)) * sW
      + sW ≤ sH * sW := by
    have := Nat.mul_le_mul_right sW hy1
    rwa [Nat.succ_mul] at this
  have hcomm : sH * sW = sW * sH := Nat.mul_comm sH sW
  refine (mapM_some_of_forall (bilinearChan data sW sH dW dH y x) ?_).trans rfl
  intro c hc
  have hc4 : c < 4 := List.mem_range.mp hc
  rw [readQ_ok (show ((⌊(y : ℚ) * (((sH : ℚ) - 1) / (dH : ℚ))⌋).toNat * sW
        + (⌊(x : ℚ) * (((sW : ℚ) - 1) / (dW : ℚ))⌋).toNat) * 4 + c < data.length from by
      omega),
    readQ_ok (show ((⌊(y : ℚ) * (((sH : ℚ) - 1) / (dH : ℚ))⌋).toNat * sW
        + min ((⌊(x : ℚ) * (((sW : ℚ) - 1) / (dW : ℚ))⌋).toNat + 1) (sW - 1)) * 4 + c
        < data.length from by omega),
    readQ_ok (show ((min ((⌊(y : ℚ) * (((sH : ℚ) - 1) / (dH : ℚ))⌋).toNat + 1) (sH - 1)) * sW
        + (⌊(x : ℚ) * (((sW : ℚ) - 1) / (dW : ℚ))⌋).toNat) * 4 + c < data.length from by
      omega),
    readQ_ok (show ((min ((⌊(y : ℚ) * (((sH : ℚ) - 1) / (dH : ℚ))⌋).toNat + 1) (sH - 1)) * sW
        + min ((⌊(x : ℚ) * (((sW : ℚ) - 1) / (dW : ℚ))⌋).toNat + 1) (sW - 1)) * 4 + c
        < data.length from by omega)]
  simp only [Option.bind_eq_bind, Option.some_bind]
  rfl

/-- At destination pixel `(0, 0)` the bilinear kernel reduces to the source's
top-left pixel: both fractional offsets are zero. -/
theorem bilinearChan00 {data : List Nat} {sW sH dW dH : Nat}
    (hbytes : ∀ v ∈ data, v < 256) (c : Nat) :
    bilinearChan data sW sH dW dH 0 0 c = byteAt data c := by
  simp only [bilinearChan, Nat.cast_zero, zero_mul, Int.floor_zero, Int.toNat_zero,
    Nat.zero_mul, Nat.zero_add, Nat.add_zero, sub_zero, mul_one, mul_zero, one_mul,
    add_zero, zero_add, sub_self]
  exact byte_roundtrip (by have := byteAt_lt hbytes c; omega)

theorem take4_eq_byteAt {data : List Nat} (h : 4 ≤ data.length) :
    data.take 4 = [byteAt data 0, byteAt data 1, byteAt data 2, byteAt data 3] := by
  match data, h with
  | a :: b :: c :: d :: t, _ => rfl

/-- C3 (amended): on a well-formed source the bilinear resize to the source's
own dimensions always succeeds, and it reproduces the top-left pixel exactly
(there both fractional offsets are zero).  Because the ratio is
`(srcDim - 1) / dstDim` rather than `srcDim / dstDim`, interior pixels are
resampled at fractional positions and are generally NOT reproduced, so the
claim's full-identity form is false; see the counterexample. -/
theorem c3_bilinear_same_dims :
    ∀ (sW sH : Nat) (data : List Nat), 1 ≤ sW → 1 ≤ sH →
      data.length = sW * sH * 4 → (∀ v ∈ data, v < 256) →
      ∃ out, resize_bilinear data sW sH sW sH = some out
        ∧ out.take 4 = data.take 4 := by
  intro sW sH data hw hh hlen hbytes
  refine ⟨_, resize_bilinear_ok hw hh hw hh hlen, ?_⟩
  obtain ⟨m, rfl⟩ : ∃ m, sH = m + 1 := ⟨sH - 1, by omega⟩
  obtain ⟨k, rfl⟩ : ∃ k, sW = k + 1 := ⟨sW - 1, by omega⟩
  have h4 : 4 ≤ data.length := by
    have hpos : 0 < (k + 1) * (m + 1) := Nat.mul_pos (Nat.succ_pos k) (Nat.succ_pos m)
    omega
  rw [List.range_succ_eq_map]
  simp only [List.map_cons, List.flatten_cons]
  rw [List.range_succ_eq_map]
  simp only [List.map_cons, List.flatten_cons]
  rw [List.append_assoc]
  have hp : bilinearPixel data (k + 1) (m + 1) (k + 1) (m + 1) 0 0
      = [byteAt data 0, byteAt data 1, byteAt data 2, byteAt data 3] := by
    rw [bilinearPixel, show List.range 4 = [0, 1, 2, 3] from rfl]
    simp only [List.map_cons, List.map_nil]
    rw [bilinearChan00 hbytes 0, bilinearChan00 hbytes 1, bilinearChan00 hbytes 2,
      bilinearChan00 hbytes 3]
  rw [hp, take4_eq_byteAt h4]
  exact List.take_left [byteAt data 0, byteAt data 1, byteAt data 2, byteAt data 3] _

/-- Rounding half-away-from-zero sends `255/2` to `128`. -/
theorem val_255_half : u8cast (roundHAZ ((255 : ℚ) / 2)) = 128 := by
  rw [roundHAZ, if_neg (by norm_num)]
  have h : ⌊(255 : ℚ) / 2 + 1 / 2⌋ = 128 := by norm_num [Int.floor_eq_iff]
  rw [h]
  rfl

/-- The second output pixel of the 2×1 counterexample: the kernel samples at
source abscissa `1/2` and averages the two source pixels. -/
theorem c3cx_chan {c : Nat} (hc : c < 4) :
    bilinearChan [0, 0, 0, 0, 255, 255, 255, 255] 2 1 2 1 0 1 c = 128 := by
  simp only [bilinearChan]
  rw [show ((1 : ℕ) : ℚ) * ((((2 : ℕ) : ℚ) - 1) / ((2 : ℕ) : ℚ)) = 1 / 2 from by
      push_cast
      norm_num,
    show ((0 : ℕ) : ℚ) * ((((1 : ℕ) : ℚ) - 1) / ((1 : ℕ) : ℚ)) = 0 from by
      push_cast
      norm_num,
    floor_half_q, Int.floor_zero, Int.toNat_zero]
  interval_cases c
  · convert val_255_half using 2
    norm_num [byteAt]
  · convert val_255_half using 2
    norm_num [byteAt]
  · convert val_255_half using 2
    norm_num [byteAt]
  · convert val_255_half using 2
    norm_num [byteAt]

/-- C3 (counterexample): resizing the 2×1 image `[black, white]` to its own
dimensions with the bilinear kernel yields `[black, mid-gray]`, not the
source: the second pixel is sampled at fractional position `1/2`. -/
theorem c3_counterexample :
    resize_bilinear [0, 0, 0, 0, 255, 255, 255, 255] 2 1 2 1
        = some [0, 0, 0, 0, 128, 128, 128, 128]
      ∧ resize_bilinear [0, 0, 0, 0, 255, 255, 255, 255] 2 1 2 1
        ≠ some [0, 0, 0, 0, 255, 255, 255, 255] := by
  have hok := resize_bilinear_ok (show 1 ≤ 2 by omega) (show 1 ≤ 1 by omega)
    (show 1 ≤ 2 by omega) (show 1 ≤ 1 by omega)
    (show ([0, 0, 0, 0, 255, 255, 255, 255] : List Nat).length = 2 * 1 * 4 from rfl)
  have hpix0 : bilinearPixel [0, 0, 0, 0, 255, 255, 255, 255] 2 1 2 1 0 0
      = [0, 0, 0, 0] := by
    rw [bilinearPixel, show List.range 4 = [0, 1, 2, 3] from rfl]
    simp only [List.map_cons, List.map_nil]
    rw [bilinearChan00 (by decide) 0, bilinearChan00 (by decide) 1,
      bilinearChan00 (by decide) 2, bilinearChan00 (by decide) 3]
    rfl
  have hpix1 : bilinearPixel [0, 0, 0, 0, 255, 255, 255, 255] 2 1 2 1 0 1
      = [128, 128, 128, 128] := by
    rw [bilinearPixel, show List.range 4 = [0, 1, 2, 3] from rfl]
    simp only [List.map_cons, List.map_nil]
    rw [c3cx_chan (by omega), c3cx_chan (by omega), c3cx_chan (by omega),
      c3cx_chan (by omega)]
  have heq : resize_bilinear [0, 0, 0, 0, 255, 255, 255, 255] 2 1 2 1
      = some [0, 0, 0, 0, 128, 128, 128, 128] := by
    rw [hok, show List.range 1 = [0] from rfl, show List.range 2 = [0, 1] from rfl]
    simp only [List.map_cons, List.map_nil, List.flatten_cons, List.flatten_nil,
      List.append_nil]
    rw [hpix0, hpix1]
    rfl
  exact ⟨heq, by rw [heq]; simp⟩

/-- Witness for C3: the amended statement at a concrete 1×1 image. -/
theorem c3_bilinear_same_dims_witness :
    ∃ out, resize_bilinear [1, 2, 3, 4] 1 1 1 1 = some out
      ∧ out.take 4 = ([1, 2, 3, 4] : List Nat).take 4 :=
  c3_bilinear_same_dims 1 1 [1, 2, 3, 4] (by decide) (by decide) (by decide) (by decide)

end Codec
